import Mathlib

/-!
Verification of the toy mark-and-sweep GC heap (src/heap.rs) and the toy
Lisp VM built on a GC heap (lisp/src/vm.rs).

The development has two independent shallow embeddings:

* namespace `ToyGC` models src/heap.rs: a single fixed-size page of
  `PairStorage` cells with mark/allocated bitmaps, an intrusive freelist
  (modelled as the list of free cell indices, head first), a pin table,
  and the mark/sweep collector.  Cell addresses are modelled as cell
  indices (the page is unique, so an address determines the index).
  The sweep additionally returns the list of indices whose destructor ran,
  as a ghost observation; `Heap` carries a ghost `gcCount` counting
  completed collection cycles.  The in-code assertions that always hold
  under the freelist invariant (proved below) are not modelled.

* namespace `Lisp` models lisp/src/vm.rs: values, the append-only pair
  store (`hs.alloc`), association-list environments, `eval` and `apply`.
  Divergence is modelled with a depth budget: the budget is decremented
  exactly when the source performs a nested evaluator invocation
  (`eval` calling `eval`/`apply`, `apply` evaluating the body), and NOT on
  the iterations of the source while-loops (`eval_each`, the parameter
  binding loop, `Environment::lookup`), which run at constant host stack.
  The budget therefore tracks the host recursion depth of the source up to
  small per-call constants.  The while-loops walk cons chains in the store;
  they are modelled with an internal counter bounded by the store size,
  which only matters for cyclic chains (where the source diverges and the
  model reports exhaustion).  The chain of expressions handled by
  `eval_each` is read before the elements run; the store is append-only
  and the only mutation, `set_cdr` in `set!`, targets environment rib
  cells, which are allocated fresh and never appear in expression chains,
  so this matches the lazy reads of the source on all evaluations that do
  not already diverge.  Errors are modelled as `Except.error`; a Rust
  panic is the distinguished `VmErr.fatal`.
-/

namespace ToyGC

/-- Total number of Pair objects that can be allocated in a Heap at once
(HEAP_SIZE in src/heap.rs). -/
def HEAP_SIZE : Nat := 125

abbrev HostInt := Int

/-- The GC value type of src/heap.rs (the gc_inline_enum Value / ValueStorage):
Null, Int, Str, Pair.  A Pair carries the index of its cell in the page. -/
inductive Value where
  | Null : Value
  | Int (n : HostInt) : Value
  | Str (s : String) : Value
  | Pair (p : Nat) : Value
deriving DecidableEq, Repr

/-- PairStorage: the in-heap form of a pair, two traced Value fields. -/
structure PairStorage where
  head : Value
  tail : Value
deriving DecidableEq, Repr

/-- Default for PairStorage (impl Default in src/heap.rs): both fields Null. -/
def PairStorage.default : PairStorage := ⟨.Null, .Null⟩

/-- Bit lookup in a bitmap; out-of-range reads give false. -/
def getBit (l : List Bool) (i : Nat) : Bool := (l.getD i false)

/-- HeapStorage: one page.  mark and allocated bitmaps, the freelist as the
list of free cell indices (head of the intrusive list first), and the cell
array.  The back-pointer to the heap and the mark entry point are implicit
(there is a single page and a single cell type). -/
structure HeapStorage where
  mark_bits : List Bool
  allocated_bits : List Bool
  freelist : List Nat
  objects : List PairStorage
deriving DecidableEq, Repr

/-- HeapStorage::add_to_free_list: push a free cell on the freelist head. -/
def HeapStorage.add_to_free_list (st : HeapStorage) (p : Nat) : HeapStorage :=
  { st with freelist := p :: st.freelist }

/-- HeapStorage::new: all bits clear, then every cell index 0..HEAP_SIZE is
pushed onto the freelist in order (so the head ends at index HEAP_SIZE-1). -/
def HeapStorage.new : HeapStorage :=
  (List.range HEAP_SIZE).foldl (fun st i => st.add_to_free_list i)
    { mark_bits := List.replicate HEAP_SIZE false
      allocated_bits := List.replicate HEAP_SIZE false
      freelist := []
      objects := List.replicate HEAP_SIZE PairStorage.default }

/-- HeapStorage::try_alloc: pop the freelist head and set its allocated bit,
or return none when the freelist is empty. -/
def HeapStorage.try_alloc (st : HeapStorage) : Option (Nat × HeapStorage) :=
  match st.freelist with
  | [] => none
  | p :: rest =>
      some (p, { st with freelist := rest,
                         allocated_bits := st.allocated_bits.set p true })

/-- HeapStorage::sweep: for each index, a cell that is allocated and not
marked is destroyed (recorded in the returned list), its allocated bit is
cleared and it is pushed onto the freelist. -/
def sweepStep (acc : HeapStorage × List Nat) (i : Nat) : HeapStorage × List Nat :=
  if getBit acc.1.allocated_bits i && !(getBit acc.1.mark_bits i) then
    ({ acc.1 with allocated_bits := acc.1.allocated_bits.set i false,
                  freelist := i :: acc.1.freelist },
     acc.2 ++ [i])
  else acc

def HeapStorage.sweep (st : HeapStorage) : HeapStorage × List Nat :=
  (List.range HEAP_SIZE).foldl sweepStep (st, [])

/-- Modelled from the spec: the Mark implementation for PairStorage is
macro-generated (gc_ref_type! / gc_inline_enum!, not under src/).  Spec 4.2:
the entry point sets the mark bit for the cell, then recursively marks each
traced field; a cell whose mark bit is already set is not re-traced.  The
fuel only bounds the nesting depth of the recursion; every cell entered with
a clear mark bit gets it set first, so a nesting chain visits pairwise
distinct cells and depth HEAP_SIZE + 1 is never exhausted. -/
def markValueStep (ih : List Bool → Nat → List Bool) (marks : List Bool) :
    Value → List Bool
  | .Pair q => ih marks q
  | _ => marks

def markCellStep (objects : List PairStorage) (ih : List Bool → Nat → List Bool)
    (marks : List Bool) (i : Nat) : List Bool :=
  if getBit marks i then marks
  else
    markValueStep ih
      (markValueStep ih (marks.set i true) (objects.getD i PairStorage.default).head)
      (objects.getD i PairStorage.default).tail

def markCell (objects : List PairStorage) : Nat → List Bool → Nat → List Bool :=
  fun fuel =>
    Nat.rec (motive := fun _ => List Bool → Nat → List Bool)
      (fun marks _ => marks)
      (fun _ ih => markCellStep objects ih)
      fuel

def MARK_FUEL : Nat := HEAP_SIZE + 1

/-- Reachability through the object graph from a set of root indices:
the roots, closed under the head and tail fields that hold pairs. -/
inductive Reachable (objects : List PairStorage) (roots : List Nat) : Nat → Prop where
  | root {i : Nat} : i ∈ roots → Reachable objects roots i
  | head {i j : Nat} : Reachable objects roots i →
      (objects.getD i PairStorage.default).head = .Pair j → Reachable objects roots j
  | tail {i j : Nat} : Reachable objects roots i →
      (objects.getD i PairStorage.default).tail = .Pair j → Reachable objects roots j

/-- The heap session: at most one page, the pin table (address with its
positive pin count), and a ghost counter of completed GC cycles. -/
structure Heap where
  storage : Option HeapStorage
  pins : List (Nat × Nat)
  gcCount : Nat
deriving DecidableEq, Repr

def Heap.new : Heap := { storage := none, pins := [], gcCount := 0 }

/-- Heap::pin: increment the pin count of an address, inserting it at 1. -/
def pinsInc : List (Nat × Nat) → Nat → List (Nat × Nat)
  | [], p => [(p, 1)]
  | (q, c) :: rest, p =>
      if q = p then (q, c + 1) :: rest else (q, c) :: pinsInc rest p

/-- Heap::unpin: decrement the pin count, removing the entry at 0.
(The in-code assertion that the entry exists is not modelled.) -/
def pinsDec : List (Nat × Nat) → Nat → List (Nat × Nat)
  | [], _ => []
  | (q, c) :: rest, p =>
      if q = p then (if c - 1 = 0 then rest else (q, c - 1) :: rest)
      else (q, c) :: pinsDec rest p

def Heap.pin (h : Heap) (p : Nat) : Heap := { h with pins := pinsInc h.pins p }

def Heap.unpin (h : Heap) (p : Nat) : Heap := { h with pins := pinsDec h.pins p }

/-- The pin count of an address in the pin table. -/
def pinCount : List (Nat × Nat) → Nat → Nat
  | [], _ => 0
  | (q, c) :: rest, p => if q = p then c else pinCount rest p

/-- Heap::gc: with no storage, return at once.  Otherwise clear the mark
bits, mark from every pinned address through the per-type entry point, and
sweep.  Returns the heap together with the destroyed indices (ghost). -/
def Heap.gc (h : Heap) : Heap × List Nat :=
  match h.storage with
  | none => (h, [])
  | some st =>
      let marks := h.pins.foldl
        (fun m pr => markCell st.objects MARK_FUEL m pr.1)
        (List.replicate HEAP_SIZE false)
      let swept := HeapStorage.sweep { st with mark_bits := marks }
      ({ h with storage := some swept.1, gcCount := h.gcCount + 1 }, swept.2)

/-- Heap::force_gc (test surface): run a GC cycle. -/
def Heap.force_gc (h : Heap) : Heap × List Nat := h.gc

/-- Heap::get_storage: lazily create the single page. -/
def Heap.get_storage (h : Heap) : Heap :=
  match h.storage with
  | some _ => h
  | none => { h with storage := some HeapStorage.new }

/-- Writing the converted fields into a freshly popped cell (the ptr::write
in Heap::try_alloc). -/
def writeObj (st : HeapStorage) (p : Nat) (fields : PairStorage) : HeapStorage :=
  { st with objects := st.objects.set p fields }

/-- Heap::try_alloc: attempt a page allocation; on failure run one GC cycle
and retry; on success write the fields and pin the new cell
(PinnedRef::new). -/
def Heap.try_alloc (h : Heap) (fields : PairStorage) : Option (Nat × Heap) :=
  let h1 := h.get_storage
  match h1.storage with
  | none => none
  | some st =>
      match st.try_alloc with
      | some (p, st2) =>
          some (p, Heap.pin { h1 with storage := some (writeObj st2 p fields) } p)
      | none =>
          let h2 := (Heap.gc h1).1
          match h2.storage with
          | none => none
          | some st3 =>
              match st3.try_alloc with
              | some (p, st4) =>
                  some (p, Heap.pin { h2 with storage := some (writeObj st4 p fields) } p)
              | none => none

/-- Heap::alloc: try_alloc, with a fatal out-of-memory error on failure
(the source panics through Option::expect). -/
def Heap.alloc (h : Heap) (fields : PairStorage) : Except String (Nat × Heap) :=
  match h.try_alloc fields with
  | some r => .ok r
  | none => .error "out of memory (gc did not collect anything)"

/-- Modelled from the spec: the per-field setter generated by gc_ref_type!
(set_tail), which stores the new value into the tail field of the cell. -/
def Heap.set_tail (h : Heap) (p : Nat) (v : Value) : Heap :=
  match h.storage with
  | none => h
  | some st =>
      let obj := st.objects.getD p PairStorage.default
      { h with storage := some (writeObj st p { obj with tail := v }) }

/-- Modelled from the spec: the head setter generated by gc_ref_type!. -/
def Heap.set_head (h : Heap) (p : Nat) (v : Value) : Heap :=
  match h.storage with
  | none => h
  | some st =>
      let obj := st.objects.getD p PairStorage.default
      { h with storage := some (writeObj st p { obj with head := v }) }

/-- The freelist invariant of spec section 3: the bitmaps have page length,
the freelist indices are in range and pairwise distinct, and a cell index is
on the freelist iff its allocated bit is clear. -/
def FreelistInv (st : HeapStorage) : Prop :=
  st.allocated_bits.length = HEAP_SIZE ∧
  st.freelist.Nodup ∧
  (∀ i ∈ st.freelist, i < HEAP_SIZE) ∧
  (∀ i, i < HEAP_SIZE → (i ∈ st.freelist ↔ getBit st.allocated_bits i = false))

/-- The concrete two-cell-cycle scenario of spec section 8: allocate A and B,
link them into a cycle, drop both pins. -/
def cycleHeap : Heap :=
  match Heap.new.alloc ⟨.Null, .Null⟩ with
  | .error _ => Heap.new
  | .ok (a, h1) =>
      match h1.alloc ⟨.Pair a, .Null⟩ with
      | .error _ => Heap.new
      | .ok (b, h2) =>
          (((h2.set_tail a (.Pair b)).unpin a).unpin b)

/-- The storage of the cycle scenario heap (both cells allocated, no pins). -/
def cycleStorage : HeapStorage :=
  match cycleHeap.storage with
  | some st => st
  | none => HeapStorage.new

/-- The cycle scenario storage after the collection pass. -/
def cycleSweptStorage : HeapStorage :=
  match (cycleHeap.gc).1.storage with
  | some st => st
  | none => HeapStorage.new

/-- The pin scenario of spec section 8: allocate one pair and keep the
pinned reference returned by alloc. -/
def pinnedHeap : Heap :=
  match Heap.new.alloc ⟨.Null, .Null⟩ with
  | .ok (_, h) => h
  | .error _ => Heap.new

/-- The storage of the pin scenario heap. -/
def pinnedStorage : HeapStorage :=
  match pinnedHeap.storage with
  | some st => st
  | none => HeapStorage.new

end ToyGC

namespace Lisp

abbrev HostBool := Bool
abbrev HostInt := Int

/-- The VM value type of lisp/src/vm.rs.  Heap references (PairRef, VecRef)
are cell indices into the session store; interned symbol handles are
strings; builtin handles are identity tags. -/
inductive Value where
  | Nil : Value
  | Bool (b : HostBool) : Value
  | Int (n : HostInt) : Value
  | Symbol (s : String) : Value
  | Lambda (r : Nat) : Value
  | Builtin (id : Nat) : Value
  | Cons (r : Nat) : Value
  | Vector (r : Nat) : Value
deriving DecidableEq, Repr

/-- Value::null. -/
def Value.null : Value → HostBool
  | .Nil => true
  | _ => false

/-- Value::to_bool: every value is a true value except the literal false. -/
def Value.to_bool : Value → HostBool
  | .Bool false => false
  | _ => true

/-- The GC heap session as the VM observes it: an append-only array of pair
cells, mutated only through set_cdr. -/
structure Store where
  pairs : List (Value × Value)
deriving DecidableEq, Repr

/-- hs.alloc(Pair): append a fresh cell, returning its reference. -/
def Store.alloc (st : Store) (a d : Value) : Nat × Store :=
  (st.pairs.length, ⟨st.pairs ++ [(a, d)]⟩)

/-- PairRef::car. -/
def Store.car (st : Store) (r : Nat) : Value := (st.pairs.getD r (.Nil, .Nil)).1

/-- PairRef::cdr. -/
def Store.cdr (st : Store) (r : Nat) : Value := (st.pairs.getD r (.Nil, .Nil)).2

/-- PairRef::set_cdr. -/
def Store.set_cdr (st : Store) (r : Nat) (v : Value) : Store :=
  ⟨st.pairs.set r ((st.pairs.getD r (.Nil, .Nil)).1, v)⟩

/-- Evaluation outcomes that are not values: a recoverable error string
(Err in the source), a Rust panic (fatal), and exhaustion of the depth
budget or of a chain-walk bound (noFuel, covering source divergence and
unbounded host recursion). -/
inductive VmErr where
  | err (msg : String)
  | fatal (msg : String)
  | noFuel
deriving DecidableEq, Repr

/-- Environment::push: cons a fresh (name . value) rib onto the chain. -/
def envPush (st : Store) (env : Value) (key : String) (v : Value) : Value × Store :=
  match st.alloc (.Symbol key) v with
  | (rib, st1) =>
      match st1.alloc (.Cons rib) env with
      | (spine, st2) => (.Cons spine, st2)

/-- The while-loop of Environment::lookup; the counter bounds the chain
walk by the store size (a longer walk revisits a cell, hence cycles and the
source diverges). -/
def lookupAux (st : Store) : Nat → Value → String → Except VmErr Nat
  | 0, _, _ => .error .noFuel
  | c + 1, env, name =>
      match env with
      | .Cons p =>
          match st.car p with
          | .Cons rib =>
              if st.car rib = Value.Symbol name then .ok rib
              else lookupAux st c (st.cdr p) name
          | _ => .error (.fatal "internal error: bad environment structure")
      | .Nil => .error (.err ("undefined symbol: \"" ++ name ++ "\""))
      | _ => .error (.fatal "internal error: bad environment structure (improper list)")

/-- Environment::lookup: first rib whose name matches, innermost first. -/
def lookup (st : Store) (env : Value) (name : String) : Except VmErr Nat :=
  lookupAux st (st.pairs.length + 1) env name

/-- Environment::get. -/
def envGet (st : Store) (env : Value) (name : String) : Except VmErr Value :=
  match lookup st env name with
  | .error e => .error e
  | .ok r => .ok (st.cdr r)

/-- Environment::set: mutate the first existing binding in place. -/
def envSet (st : Store) (env : Value) (name : String) (v : Value) : Except VmErr Store :=
  match lookup st env name with
  | .error e => .error e
  | .ok r => .ok (st.set_cdr r v)

/-- parse_pair. -/
def parse_pair (st : Store) (v : Value) (msg : String) : Except VmErr (Value × Value) :=
  match v with
  | .Cons r => .ok (st.car r, st.cdr r)
  | _ => .error (.err msg)

/-- Read a proper cons chain of expressions out of the store (the chain
reads performed by the eval_each while-loop; see the header note). -/
def listify (st : Store) : Nat → Value → Except VmErr (List Value)
  | _, .Nil => .ok []
  | 0, .Cons _ => .error .noFuel
  | c + 1, .Cons p =>
      match listify st c (st.cdr p) with
      | .error e => .error e
      | .ok rest => .ok (st.car p :: rest)
  | _, _ => .error (.err "improper list of expressions")

/-- The eval_each loop as used by eval_block_body: evaluate each element,
threading the environment, keeping the last value.  The elements run
through the supplied evaluator, one nesting level down; the iteration
itself stays at the same level. -/
def evalList (ev : Store → Value → Value → Except VmErr (Value × Value × Store)) :
    List Value → Store → Value → Value → Except VmErr (Value × Value × Store)
  | [], st, env, acc => .ok (acc, env, st)
  | e :: es, st, env, _ =>
      match ev st e env with
      | .error e2 => .error e2
      | .ok (v, env2, st2) => evalList ev es st2 env2 v

/-- The eval_each loop as used by map_eval: collect the values in order. -/
def evalArgs (ev : Store → Value → Value → Except VmErr (Value × Value × Store)) :
    List Value → Store → Value → List Value → Except VmErr (List Value × Value × Store)
  | [], st, env, acc => .ok (acc, env, st)
  | e :: es, st, env, acc =>
      match ev st e env with
      | .error e2 => .error e2
      | .ok (v, env2, st2) => evalArgs ev es st2 env2 (acc ++ [v])

/-- eval_block_body: run the forms, return the last value (Nil when empty),
discarding the block-internal environment. -/
def eval_block_body (ev : Store → Value → Value → Except VmErr (Value × Value × Store))
    (st : Store) (exprs env : Value) : Except VmErr (Value × Store) :=
  match listify st (st.pairs.length + 1) exprs with
  | .error e => .error e
  | .ok es =>
      match evalList ev es st env .Nil with
      | .error e => .error e
      | .ok (v, _, st2) => .ok (v, st2)

/-- map_eval: evaluate the operand forms left to right, returning the
values and the threaded environment. -/
def map_eval (ev : Store → Value → Value → Except VmErr (Value × Value × Store))
    (st : Store) (exprs env : Value) : Except VmErr (List Value × Value × Store) :=
  match listify st (st.pairs.length + 1) exprs with
  | .error e => .error e
  | .ok es => evalArgs ev es st env []

/-- Modelled from the spec: builtin bodies live in builtins.rs, which is not
under src/ (spec section 1 lists them as external collaborators).  Only the
two builtins this verification exercises are modelled: eq? (id 0, the
derived equality: by value on atoms, by reference on heap cells) and the
binary integer subtraction - (id 1).  Anything else raises a builtin
domain error. -/
def builtinApply (st : Store) (id : Nat) (args : List Value) :
    Except VmErr (Value × Store) :=
  match id, args with
  | 0, [a, b] => .ok (.Bool (decide (a = b)), st)
  | 1, [.Int a, .Int b] => .ok (.Int (a - b), st)
  | _, _ => .error (.err "builtin: unsupported call")

/-- The parameter-binding while-loop of apply (lambda case), verbatim: the
check is i > len(args) before each binding, and the element access args[i]
panics when i = len(args), so the not-enough-arguments return is reached
only past the access.  The counter bounds the walk of the parameter chain
by the store size, as in lookup. -/
def bindParams : Nat → Store → Value → List Value → Nat → Value →
    Except VmErr (Value × Store × Nat)
  | 0, _, _, _, _, _ => .error .noFuel
  | c + 1, st, params, args, i, env =>
      match params with
      | .Cons pr =>
          if i > args.length then .error (.err "apply: not enough arguments")
          else
            match st.car pr with
            | .Symbol s =>
                if h : i < args.length then
                  match envPush st env s (args.get ⟨i, h⟩) with
                  | (env2, st2) => bindParams c st2 (st2.cdr pr) args (i + 1) env2
                else .error (.fatal "index out of bounds")
            | _ => .error (.err "syntax error in lambda arguments")
      | _ => .ok (env, st, i)

/-- The body of apply, abstracted over the evaluator used for the body
forms (one nesting level down). -/
def applyStep (ev : Store → Value → Value → Except VmErr (Value × Value × Store))
    (st : Store) (fval : Value) (args : List Value) : Except VmErr (Value × Store) :=
  match fval with
  | .Builtin id => builtinApply st id args
  | .Lambda pr =>
      match parse_pair st (st.car pr) "syntax error in lambda" with
      | .error e => .error e
      | .ok (params, body) =>
          match bindParams (st.pairs.length + 1) st params args 0 (st.cdr pr) with
          | .error e => .error e
          | .ok (env2, st2, i) =>
              if i < args.length then .error (.err "apply: too many arguments")
              else eval_block_body ev st2 body env2
  | _ => .error (.err "apply: not a function")

/-- The application path at the end of eval (operator evaluation, operand
evaluation, apply). -/
def applicationCase (ev : Store → Value → Value → Except VmErr (Value × Value × Store))
    (ap : Store → Value → List Value → Except VmErr (Value × Store))
    (st : Store) (p : Nat) (env : Value) : Except VmErr (Value × Value × Store) :=
  match ev st (st.car p) env with
  | .error e => .error e
  | .ok (fval, env1, st1) =>
      match map_eval ev st1 (st1.cdr p) env1 with
      | .error e => .error e
      | .ok (args, env2, st2) =>
          match ap st2 fval args with
          | .error e => .error e
          | .ok (v, st3) => .ok (v, env2, st3)

/-- The body of eval, abstracted over the evaluator and applier used for
nested invocations (one nesting level down).  The head of an application
form is compared against the six special-form names before, and instead of,
any environment access. -/
def evalStep (ev : Store → Value → Value → Except VmErr (Value × Value × Store))
    (ap : Store → Value → List Value → Except VmErr (Value × Store))
    (st : Store) (expr env : Value) : Except VmErr (Value × Value × Store) :=
  match expr with
  | .Symbol s =>
      match envGet st env s with
      | .error e => .error e
      | .ok v => .ok (v, env, st)
  | .Cons p =>
      match st.car p with
      | .Symbol s =>
          if s = "lambda" then
            match st.alloc (st.cdr p) env with
            | (cell, st1) => .ok (.Lambda cell, env, st1)
          else if s = "quote" then
            match parse_pair st (st.cdr p) "(quote) with no arguments" with
            | .error e => .error e
            | .ok (datum, rest) =>
                if !rest.null then .error (.err "too many arguments to (quote)")
                else .ok (datum, env, st)
          else if s = "if" then
            match parse_pair st (st.cdr p) "(if) with no arguments" with
            | .error e => .error e
            | .ok (cond, rest1) =>
                match parse_pair st rest1 "missing arguments after (if COND)" with
                | .error e => .error e
                | .ok (t_expr, rest2) =>
                    match parse_pair st rest2 "missing else argument after (if COND X)" with
                    | .error e => .error e
                    | .ok (f_expr, rest3) =>
                        if !rest3.null then
                          .error (.err "too many arguments in (if) expression")
                        else
                          match ev st cond env with
                          | .error e => .error e
                          | .ok (cond_result, env1, st1) =>
                              ev st1 (if cond_result.to_bool then t_expr else f_expr) env1
          else if s = "begin" then
            match eval_block_body ev st (st.cdr p) env with
            | .error e => .error e
            | .ok (v, st1) => .ok (v, env, st1)
          else if s = "define" then
            match parse_pair st (st.cdr p) "(define) with no name" with
            | .error e => .error e
            | .ok (name, rest) =>
                match name with
                | .Symbol sy =>
                    (match parse_pair st rest "(define) with no value" with
                     | .error e => .error e
                     | .ok (vexpr, rest2) =>
                         match rest2 with
                         | .Nil =>
                             (match ev st vexpr env with
                              | .error e => .error e
                              | .ok (v, env1, st1) =>
                                  match envPush st1 env1 sy v with
                                  | (env2, st2) => .ok (.Nil, env2, st2))
                         | _ => .error (.err "too many items in (define) special form"))
                | .Cons pr =>
                    (match st.car pr with
                     | .Symbol nm =>
                         (match st.alloc (st.cdr pr) rest with
                          | (code, st1) =>
                              match st1.alloc (.Cons code) env with
                              | (fcell, st2) =>
                                  match envPush st2 env nm (.Lambda fcell) with
                                  | (env2, st3) => .ok (.Nil, env2, st3))
                     | _ => .error (.err "(define) with no name"))
                | _ => .error (.err "(define) with a non-symbol name")
          else if s = "set!" then
            match parse_pair st (st.cdr p) "(set!) with no name" with
            | .error e => .error e
            | .ok (first, rest) =>
                match first with
                | .Symbol nm =>
                    (match parse_pair st rest "(set!) with no value" with
                     | .error e => .error e
                     | .ok (vexpr, rest2) =>
                         if !rest2.null then .error (.err "(set!): too many arguments")
                         else
                           match ev st vexpr env with
                           | .error e => .error e
                           | .ok (v, _, st1) =>
                               match envSet st1 env nm v with
                               | .error e => .error e
                               | .ok st2 => .ok (.Nil, env, st2))
                | _ => .error (.err "(set!) first argument must be a name")
          else applicationCase ev ap st p env
      | _ => applicationCase ev ap st p env
  | .Builtin _ => .error (.err "builtin function found in source code")
  | .Vector _ => .error (.err "vectors are not expressions")
  | _ => .ok (expr, env, st)

/-- The signatures of the two mutually nested evaluator entry points. -/
abbrev EvalFn := Store → Value → Value → Except VmErr (Value × Value × Store)
abbrev ApplyFn := Store → Value → List Value → Except VmErr (Value × Store)

/-- One depth level of the machine: eval at a level uses eval and apply one
level down for nested invocations, and apply at a level evaluates the body
forms one level down, matching the call nesting of the source. -/
def machineStep (m : EvalFn × ApplyFn) : EvalFn × ApplyFn :=
  (evalStep m.1 m.2, applyStep m.1)

/-- The machine at every depth budget, by plain iteration (Nat.rec keeps
kernel evaluation of concrete runs linear in the budget). -/
def machine : Nat → EvalFn × ApplyFn :=
  fun n =>
    Nat.rec (motive := fun _ => EvalFn × ApplyFn)
      (fun _ _ _ => .error .noFuel, fun _ _ _ => .error .noFuel)
      (fun _ ih => machineStep ih)
      n

/-- eval, with the depth budget: budget 0 is exhaustion, and at budget f+1
nested evaluator invocations run at budget f. -/
def eval (fuel : Nat) (st : Store) (expr env : Value) :
    Except VmErr (Value × Value × Store) :=
  (machine fuel).1 st expr env

/-- apply, with the depth budget. -/
def apply (fuel : Nat) (st : Store) (fval : Value) (args : List Value) :
    Except VmErr (Value × Store) :=
  (machine fuel).2 st fval args

end Lisp

namespace Lisp

/-- Symbol shorthand for building programs. -/
def symb (s : String) : Value := .Symbol s

/-- Allocate a proper list in the store, consing right to left. -/
def mkList (st : Store) : List Value → Value × Store
  | [] => (.Nil, st)
  | v :: vs =>
      match mkList st vs with
      | (tail, st1) =>
          match st1.alloc v tail with
          | (cell, st2) => (.Cons cell, st2)

/-- The self-tail-recursive loop program over an environment holding the
builtins it needs:
(begin (define loop 0)
       (set! loop (lambda (n) (if (eq? n 0) (quote done) (loop (- n 1)))))
       (loop N)).
The define/set! split ties the recursive knot: the closure captures the
environment whose loop rib is later mutated in place.  Returns the store,
the program expression and the environment. -/
def loopProgram (n : HostInt) : Store × Value × Value :=
  match envPush ⟨[]⟩ .Nil "eq?" (.Builtin 0) with
  | (env1, st1) =>
  match envPush st1 env1 "-" (.Builtin 1) with
  | (env, st2) =>
  match mkList st2 [symb "eq?", symb "n", .Int 0] with
  | (cond, st3) =>
  match mkList st3 [symb "quote", symb "done"] with
  | (thenE, st4) =>
  match mkList st4 [symb "-", symb "n", .Int 1] with
  | (sub, st5) =>
  match mkList st5 [symb "loop", sub] with
  | (elseE, st6) =>
  match mkList st6 [symb "if", cond, thenE, elseE] with
  | (ifE, st7) =>
  match mkList st7 [symb "n"] with
  | (params, st8) =>
  match mkList st8 [symb "lambda", params, ifE] with
  | (lam, st9) =>
  match mkList st9 [symb "define", symb "loop", .Int 0] with
  | (defE, st10) =>
  match mkList st10 [symb "set!", symb "loop", lam] with
  | (setE, st11) =>
  match mkList st11 [symb "loop", .Int n] with
  | (call, st12) =>
  match mkList st12 [symb "begin", defE, setE, call] with
  | (prog, st13) => (st13, prog, env)

/-- Run the loop program of N iterations at a given depth budget, keeping
the resulting value. -/
def runLoop (fuel : Nat) (n : HostInt) : Except VmErr Value :=
  match loopProgram n with
  | (st, expr, env) =>
      match eval fuel st expr env with
      | .error e => .error e
      | .ok (v, _, _) => .ok v

end Lisp

deriving instance DecidableEq for Except

namespace Lisp

/-- The program ((lambda (a b) a) 1): an application with one argument
missing (spec scenario 5). -/
def arityProgram : Store × Value :=
  match mkList ⟨[]⟩ [symb "a", symb "b"] with
  | (params, st1) =>
  match mkList st1 [symb "lambda", params, symb "a"] with
  | (lam, st2) =>
  match mkList st2 [lam, .Int 1] with
  | (prog, st3) => (st3, prog)

/-- The program ((lambda args args) 1 2 3): a lambda whose parameter
position is the bare symbol args (spec scenario 5). -/
def restProgram : Store × Value :=
  match mkList ⟨[]⟩ [symb "lambda", symb "args", symb "args"] with
  | (lam, st1) =>
  match mkList st1 [lam, .Int 1, .Int 2, .Int 3] with
  | (prog, st2) => (st2, prog)

/-- The program (define x 1). -/
def defineProgram : Store × Value :=
  match mkList ⟨[]⟩ [symb "define", symb "x", .Int 1] with
  | (prog, st1) => (st1, prog)

/-- The program (begin (define x 1) (set! x 2)). -/
def defineSetProgram : Store × Value :=
  match mkList ⟨[]⟩ [symb "define", symb "x", .Int 1] with
  | (d, st1) =>
  match mkList st1 [symb "set!", symb "x", .Int 2] with
  | (sE, st2) =>
  match mkList st2 [symb "begin", d, sE] with
  | (prog, st3) => (st3, prog)

/-- The program (quote ()). -/
def quoteNilProgram : Store × Value :=
  match mkList ⟨[]⟩ [symb "quote", .Nil] with
  | (prog, st1) => (st1, prog)

/-- The program (begin (define x 1) 2). -/
def beginDefineProgram : Store × Value :=
  match mkList ⟨[]⟩ [symb "define", symb "x", .Int 1] with
  | (d, st1) =>
  match mkList st1 [symb "begin", d, .Int 2] with
  | (prog, st2) => (st2, prog)

/-- The program (begin (set! y 2)) with an environment binding y to 1:
store, expression, environment. -/
def beginSetProgram : Store × Value × Value :=
  match envPush ⟨[]⟩ .Nil "y" (.Int 1) with
  | (env, st1) =>
  match mkList st1 [symb "set!", symb "y", .Int 2] with
  | (sE, st2) =>
  match mkList st2 [symb "begin", sE] with
  | (prog, st3) => (st3, prog, env)

/-- Evaluate a program in the empty environment, keeping the value. -/
def runProg (fuel : Nat) (p : Store × Value) : Except VmErr Value :=
  match eval fuel p.1 p.2 .Nil with
  | .error e => .error e
  | .ok (v, _, _) => .ok v

/-- Observations of the after-state of (begin (define x 1) 2): the value
and environment eval returns, and the result of looking x up in that
environment against the final store. -/
def beginDefineObs : Except VmErr (Value × Value) × Except VmErr Value :=
  match eval 6 beginDefineProgram.1 beginDefineProgram.2 .Nil with
  | .error e => (.error e, .error e)
  | .ok (v, env2, st2) =>
      (.ok (v, env2),
       match eval 2 st2 (.Symbol "x") env2 with
       | .error e => .error e
       | .ok (v2, _, _) => .ok v2)

/-- Observations of the after-state of (begin (set! y 2)) run in an
environment binding y to 1: the value and environment eval returns, and
the value of y read through the original environment in the final store. -/
def beginSetObs : Except VmErr (Value × Value) × Except VmErr Value :=
  match beginSetProgram with
  | (st, prog, env) =>
      match eval 6 st prog env with
      | .error e => (.error e, .error e)
      | .ok (v, env2, st2) => (.ok (v, env2), envGet st2 env "y")

end Lisp

namespace Lisp

/-- The store contents after the loop program's define and set! forms have
run: the 34 cells built by loopProgram (with cell 34's cdr mutated to the
closure by set!) plus the loop rib (34), its environment spine (35) and the
closure cell (36). -/
def loopIterPairs (n : HostInt) : List (Value × Value) := [
  (Value.Symbol "eq?", Value.Builtin 0),
  (Value.Cons 0, Value.Nil),
  (Value.Symbol "-", Value.Builtin 1),
  (Value.Cons 2, Value.Cons 1),
  (Value.Int 0, Value.Nil),
  (Value.Symbol "n", Value.Cons 4),
  (Value.Symbol "eq?", Value.Cons 5),
  (Value.Symbol "done", Value.Nil),
  (Value.Symbol "quote", Value.Cons 7),
  (Value.Int 1, Value.Nil),
  (Value.Symbol "n", Value.Cons 9),
  (Value.Symbol "-", Value.Cons 10),
  (Value.Cons 11, Value.Nil),
  (Value.Symbol "loop", Value.Cons 12),
  (Value.Cons 13, Value.Nil),
  (Value.Cons 8, Value.Cons 14),
  (Value.Cons 6, Value.Cons 15),
  (Value.Symbol "if", Value.Cons 16),
  (Value.Symbol "n", Value.Nil),
  (Value.Cons 17, Value.Nil),
  (Value.Cons 18, Value.Cons 19),
  (Value.Symbol "lambda", Value.Cons 20),
  (Value.Int 0, Value.Nil),
  (Value.Symbol "loop", Value.Cons 22),
  (Value.Symbol "define", Value.Cons 23),
  (Value.Cons 21, Value.Nil),
  (Value.Symbol "loop", Value.Cons 25),
  (Value.Symbol "set!", Value.Cons 26),
  (Value.Int n, Value.Nil),
  (Value.Symbol "loop", Value.Cons 28),
  (Value.Cons 29, Value.Nil),
  (Value.Cons 27, Value.Cons 30),
  (Value.Cons 24, Value.Cons 31),
  (Value.Symbol "begin", Value.Cons 32),
  (Value.Symbol "loop", Value.Lambda 36),
  (Value.Cons 34, Value.Cons 3),
  (Value.Cons 20, Value.Cons 35)
]

/-- The store seen by the body of one loop iteration: the iteration entered
with store loopIterPairs n ++ extra and argument k, and parameter binding
appended the rib (Symbol n, Int k) and the environment spine pointing at the
closure environment (cell 35). -/
def iterStore (n k : HostInt) (extra : List (Value × Value)) : Store :=
  ⟨loopIterPairs n ++ (extra ++
    [(Value.Symbol "n", Value.Int k), (Value.Cons (37 + extra.length), Value.Cons 35)])⟩

end Lisp

namespace ToyGC

theorem getBit_set_self {l : List Bool} {i : Nat} {b : Bool} (h : i < l.length) :
    getBit (l.set i b) i = b := by
  simp [getBit, List.getD, List.getElem?_set_self', List.getElem?_eq_getElem, h]

theorem getBit_set_ne {l : List Bool} {i j : Nat} {b : Bool} (h : i ≠ j) :
    getBit (l.set i b) j = getBit l j := by
  simp [getBit, List.getD, List.getElem?_set_ne h]

theorem getBit_set_oob {l : List Bool} {i : Nat} {b : Bool} (h : l.length ≤ i) :
    getBit (l.set i b) i = getBit l i := by
  simp [List.set_eq_of_length_le h]

theorem getBit_true_lt {l : List Bool} {i : Nat} (h : getBit l i = true) : i < l.length := by
  by_contra hc
  simp [getBit, List.getD, List.getElem?_eq_none (Nat.le_of_not_lt hc)] at h

theorem getBit_replicate {n i : Nat} : getBit (List.replicate n false) i = false := by
  by_cases h : i < n
  · simp [getBit, List.getD, List.getElem?_eq_getElem, h]
  · simp [getBit, List.getD,
      List.getElem?_eq_none (le_trans (le_of_eq (List.length_replicate n false))
        (Nat.le_of_not_lt h))]

theorem getBit_set_true {l : List Bool} {i j : Nat} (h : getBit l j = true) :
    getBit (l.set i true) j = true := by
  by_cases hij : i = j
  · subst hij
    by_cases hl : i < l.length
    · exact getBit_set_self hl
    · rw [getBit_set_oob (Nat.le_of_not_lt hl)]; exact h
  · rw [getBit_set_ne hij]; exact h

theorem getBit_set_cases {l : List Bool} {i j : Nat} {b : Bool}
    (h : getBit (l.set i b) j = true) : (j = i ∧ b = true) ∨ getBit l j = true := by
  by_cases hij : i = j
  · subst hij
    by_cases hl : i < l.length
    · rw [getBit_set_self hl] at h; exact Or.inl ⟨rfl, h⟩
    · rw [getBit_set_oob (Nat.le_of_not_lt hl)] at h; exact Or.inr h
  · rw [getBit_set_ne hij] at h; exact Or.inr h

theorem markCell_zero (obj : List PairStorage) (marks : List Bool) (i : Nat) :
    markCell obj 0 marks i = marks := rfl

theorem markCell_succ (obj : List PairStorage) (f : Nat) (marks : List Bool) (i : Nat) :
    markCell obj (f + 1) marks i = markCellStep obj (markCell obj f) marks i := rfl

theorem markValueStep_length {ih : List Bool → Nat → List Bool}
    (hih : ∀ m q, (ih m q).length = m.length) (marks : List Bool) (v : Value) :
    (markValueStep ih marks v).length = marks.length := by
  cases v <;> simp [markValueStep, hih]

theorem markCell_length (obj : List PairStorage) :
    ∀ (f : Nat) (marks : List Bool) (i : Nat),
      (markCell obj f marks i).length = marks.length := by
  intro f
  induction f with
  | zero => intro marks i; rfl
  | succ f ih =>
      intro marks i
      rw [markCell_succ, markCellStep]
      by_cases h : getBit marks i
      · simp [h]
      · simp only [h, if_false, Bool.false_eq_true]
        rw [markValueStep_length (fun m q => ih m q),
            markValueStep_length (fun m q => ih m q), List.length_set]

theorem markValueStep_mono {ih : List Bool → Nat → List Bool}
    (hih : ∀ m q j, getBit m j = true → getBit (ih m q) j = true)
    {marks : List Bool} {j : Nat} (v : Value) (h : getBit marks j = true) :
    getBit (markValueStep ih marks v) j = true := by
  cases v <;> first
    | exact h
    | exact hih _ _ _ h

theorem markCell_mono (obj : List PairStorage) :
    ∀ (f : Nat) (marks : List Bool) (i j : Nat),
      getBit marks j = true → getBit (markCell obj f marks i) j = true := by
  intro f
  induction f with
  | zero => intro marks i j h; exact h
  | succ f ih =>
      intro marks i j h
      rw [markCell_succ, markCellStep]
      by_cases hm : getBit marks i
      · simp [hm, h]
      · simp only [hm, if_false, Bool.false_eq_true]
        exact markValueStep_mono (fun m q j2 => ih m q j2) _
          (markValueStep_mono (fun m q j2 => ih m q j2) _ (getBit_set_true h))

theorem markCell_marks_root (obj : List PairStorage) (f : Nat) (marks : List Bool)
    (i : Nat) (hf : 0 < f) (hi : i < marks.length) :
    getBit (markCell obj f marks i) i = true := by
  cases f with
  | zero => exact absurd hf (by simp)
  | succ f =>
      rw [markCell_succ, markCellStep]
      by_cases hm : getBit marks i
      · simp [hm]
      · simp only [hm, if_false, Bool.false_eq_true]
        exact markValueStep_mono (fun m q j2 => markCell_mono obj f m q j2) _
          (markValueStep_mono (fun m q j2 => markCell_mono obj f m q j2) _
            (getBit_set_self hi))

theorem markCell_sound (obj : List PairStorage) (roots : List Nat) :
    ∀ (f : Nat) (i : Nat) (marks : List Bool),
      Reachable obj roots i →
      (∀ k, getBit marks k = true → Reachable obj roots k) →
      ∀ k, getBit (markCell obj f marks i) k = true → Reachable obj roots k := by
  intro f
  induction f with
  | zero => intro i marks _ hmarks k hk; exact hmarks k hk
  | succ f ih =>
      intro i marks hi hmarks k hk
      rw [markCell_succ, markCellStep] at hk
      by_cases hm : getBit marks i
      · simp only [hm, if_true] at hk
        exact hmarks k hk
      · simp only [hm, if_false, Bool.false_eq_true] at hk
        have h1 : ∀ k2, getBit (marks.set i true) k2 = true → Reachable obj roots k2 := by
          intro k2 hk2
          rcases getBit_set_cases hk2 with ⟨he, _⟩ | hold
          · exact he ▸ hi
          · exact hmarks k2 hold
        have h2 : ∀ k2,
            getBit (markValueStep (markCell obj f) (marks.set i true)
              (obj.getD i PairStorage.default).head) k2 = true →
            Reachable obj roots k2 := by
          intro k2 hk2
          cases hh : (obj.getD i PairStorage.default).head with
          | Pair q =>
              rw [hh] at hk2
              exact ih q _ (Reachable.head hi hh) h1 k2 hk2
          | Null => rw [hh] at hk2; exact h1 k2 hk2
          | Int n => rw [hh] at hk2; exact h1 k2 hk2
          | Str s => rw [hh] at hk2; exact h1 k2 hk2
        cases ht : (obj.getD i PairStorage.default).tail with
        | Pair q =>
            rw [ht] at hk
            exact ih q _ (Reachable.tail hi ht) h2 k hk
        | Null => rw [ht] at hk; exact h2 k hk
        | Int n => rw [ht] at hk; exact h2 k hk
        | Str s => rw [ht] at hk; exact h2 k hk

end ToyGC

namespace ToyGC

/-- The root-marking fold of Heap.gc. -/
def markRoots (obj : List PairStorage) (pins : List (Nat × Nat)) (marks : List Bool) :
    List Bool :=
  pins.foldl (fun m pr => markCell obj MARK_FUEL m pr.1) marks

theorem markRoots_def (obj : List PairStorage) (pins : List (Nat × Nat))
    (marks : List Bool) :
    pins.foldl (fun m pr => markCell obj MARK_FUEL m pr.1) marks =
      markRoots obj pins marks := rfl

theorem markRoots_sound (obj : List PairStorage) (roots : List Nat) :
    ∀ (pins : List (Nat × Nat)) (marks : List Bool),
      (∀ pr ∈ pins, Reachable obj roots pr.1) →
      (∀ k, getBit marks k = true → Reachable obj roots k) →
      ∀ k, getBit (markRoots obj pins marks) k = true → Reachable obj roots k := by
  intro pins
  induction pins with
  | nil => intro marks _ hmarks k hk; exact hmarks k hk
  | cons a L ih =>
      intro marks hroots hmarks k hk
      exact ih _ (fun pr h => hroots pr (List.mem_cons_of_mem a h))
        (markCell_sound obj roots MARK_FUEL a.1 marks
          (hroots a (List.mem_cons_self a L)) hmarks) k hk

theorem markRoots_length (obj : List PairStorage) :
    ∀ (pins : List (Nat × Nat)) (marks : List Bool),
      (markRoots obj pins marks).length = marks.length := by
  intro pins
  induction pins with
  | nil => intro marks; rfl
  | cons a L ih =>
      intro marks
      rw [markRoots, List.foldl_cons, markRoots_def, ih, markCell_length]

theorem markRoots_mono (obj : List PairStorage) :
    ∀ (pins : List (Nat × Nat)) (marks : List Bool) (j : Nat),
      getBit marks j = true → getBit (markRoots obj pins marks) j = true := by
  intro pins
  induction pins with
  | nil => intro marks j h; exact h
  | cons a L ih =>
      intro marks j h
      rw [markRoots, List.foldl_cons, markRoots_def]
      exact ih _ j (markCell_mono obj MARK_FUEL marks a.1 j h)

theorem markRoots_marks_pin (obj : List PairStorage) :
    ∀ (pins : List (Nat × Nat)) (marks : List Bool) (i c : Nat),
      (i, c) ∈ pins → i < marks.length →
      getBit (markRoots obj pins marks) i = true := by
  intro pins
  induction pins with
  | nil => intro marks i c h; exact absurd h (List.not_mem_nil (i, c))
  | cons a L ih =>
      intro marks i c hmem hlen
      rw [markRoots, List.foldl_cons, markRoots_def]
      rcases List.mem_cons.mp hmem with he | hL
      · have : a.1 = i := by rw [← he]
        rw [this]
        exact markRoots_mono obj L _ i
          (markCell_marks_root obj MARK_FUEL marks i (by simp [MARK_FUEL]) hlen)
      · exact ih _ i c hL (by rw [markCell_length]; exact hlen)

/-- The sweep condition at an index: allocated and not marked. -/
def sweepQ (s : HeapStorage) (i : Nat) : Bool :=
  getBit s.allocated_bits i && !(getBit s.mark_bits i)

theorem sweep_foldl :
    ∀ (L : List Nat), L.Nodup → ∀ (s : HeapStorage) (d0 : List Nat),
      (L.foldl sweepStep (s, d0)).1.mark_bits = s.mark_bits ∧
      (L.foldl sweepStep (s, d0)).1.objects = s.objects ∧
      (L.foldl sweepStep (s, d0)).1.freelist =
        (L.filter (sweepQ s)).reverse ++ s.freelist ∧
      (L.foldl sweepStep (s, d0)).2 = d0 ++ L.filter (sweepQ s) ∧
      (L.foldl sweepStep (s, d0)).1.allocated_bits.length = s.allocated_bits.length ∧
      (∀ i, getBit (L.foldl sweepStep (s, d0)).1.allocated_bits i =
        (getBit s.allocated_bits i && !(decide (i ∈ L) && !(getBit s.mark_bits i)))) := by
  intro L
  induction L with
  | nil =>
      intro _ s d0
      refine ⟨rfl, rfl, by simp, by simp, rfl, ?_⟩
      intro i; simp
  | cons a L ih =>
      intro hnd s d0
      have hal : a ∉ L := (List.nodup_cons.mp hnd).1
      have hndL : L.Nodup := (List.nodup_cons.mp hnd).2
      rw [List.foldl_cons]
      by_cases hq : sweepQ s a
      · have hstep : sweepStep (s, d0) a =
            ({ s with allocated_bits := s.allocated_bits.set a false,
                      freelist := a :: s.freelist }, d0 ++ [a]) := by
          rw [sweepStep]
          simp only [sweepQ] at hq
          simp [hq]
        rw [hstep]
        obtain ⟨m1, o1, f1, d1, l1, a1⟩ := ih hndL _ _
        have hfilter : L.filter (sweepQ { s with
            allocated_bits := s.allocated_bits.set a false,
            freelist := a :: s.freelist }) = L.filter (sweepQ s) := by
          apply List.filter_congr
          intro i hi
          have hia : a ≠ i := fun he => hal (he ▸ hi)
          simp only [sweepQ]
          rw [getBit_set_ne hia]
        refine ⟨m1, o1, ?_, ?_, by rw [l1]; exact List.length_set _ _ _, ?_⟩
        · rw [f1, hfilter]
          have : List.filter (sweepQ s) (a :: L) = a :: List.filter (sweepQ s) L := by
            simp [List.filter_cons, hq]
          rw [this]
          simp
        · rw [d1, hfilter]
          have : List.filter (sweepQ s) (a :: L) = a :: List.filter (sweepQ s) L := by
            simp [List.filter_cons, hq]
          rw [this]
          simp
        · intro i
          rw [a1 i]
          by_cases hia : i = a
          · subst hia
            have halloc : getBit s.allocated_bits i = true := by
              simp only [sweepQ] at hq
              exact (Bool.and_eq_true_iff.mp hq).1
            have hmark : getBit s.mark_bits i = false := by
              simp only [sweepQ] at hq
              have := (Bool.and_eq_true_iff.mp hq).2
              simpa using this
            have hlen : i < s.allocated_bits.length := getBit_true_lt halloc
            simp [getBit_set_self hlen, halloc, hmark, hal]
          · have hai : a ≠ i := fun he => hia he.symm
            rw [getBit_set_ne hai]
            simp [List.mem_cons, hia]
      · have hstep : sweepStep (s, d0) a = (s, d0) := by
          rw [sweepStep]
          simp only [sweepQ] at hq
          simp only [Bool.not_eq_true] at hq
          simp [hq]
        rw [hstep]
        obtain ⟨m1, o1, f1, d1, l1, a1⟩ := ih hndL s d0
        have hfc : List.filter (sweepQ s) (a :: L) = List.filter (sweepQ s) L := by
          simp [List.filter_cons, hq]
        refine ⟨m1, o1, by rw [f1, hfc], by rw [d1, hfc], l1, ?_⟩
        intro i
        rw [a1 i]
        by_cases hia : i = a
        · subst hia
          simp only [sweepQ] at hq
          simp only [Bool.not_eq_true] at hq
          by_cases halloc : getBit s.allocated_bits i = true
          · have hmark : getBit s.mark_bits i = true := by
              rcases Bool.and_eq_false_iff.mp hq with h1 | h2
              · exact absurd halloc (by simp [h1])
              · simpa using h2
            simp [halloc, hmark, hal]
          · simp only [Bool.not_eq_true] at halloc
            simp [halloc]
        · simp [List.mem_cons, hia]

end ToyGC

namespace ToyGC

theorem gc_eq_of_some {h : Heap} {st : HeapStorage} (hst : h.storage = some st) :
    h.gc = ({ h with
        storage := some (HeapStorage.sweep { st with
          mark_bits := markRoots st.objects h.pins (List.replicate HEAP_SIZE false) }).1,
        gcCount := h.gcCount + 1 },
      (HeapStorage.sweep { st with
        mark_bits := markRoots st.objects h.pins (List.replicate HEAP_SIZE false) }).2) := by
  rw [Heap.gc, hst]
  rfl

theorem not_reachable_empty_roots (obj : List PairStorage) (j : Nat) :
    ¬ Reachable obj [] j := by
  intro h
  induction h with
  | root hmem => exact absurd hmem (List.not_mem_nil _)
  | head _ _ ih => exact ih
  | tail _ _ ih => exact ih

theorem count_filter_nodup_of_mem {L : List Nat} {q : Nat → Bool} {i : Nat}
    (hnd : L.Nodup) (hmem : i ∈ L) (hq : q i = true) :
    (L.filter q).count i = 1 := by
  have hmf : i ∈ L.filter q := List.mem_filter.mpr ⟨hmem, hq⟩
  have hle := List.nodup_iff_count_le_one.mp (hnd.filter q) i
  have hpos := List.count_pos_iff.mpr hmf
  omega

theorem not_mem_filter_of_neg {L : List Nat} {q : Nat → Bool} {i : Nat}
    (hq : q i = false) : i ∉ L.filter q := by
  intro hmf
  have := (List.mem_filter.mp hmf).2
  rw [hq] at this
  exact absurd this (by simp)

end ToyGC

set_option maxRecDepth 40000 in
/-- C1: for every GC cycle, every cell that is allocated but not reachable
from any pinned address is destroyed exactly once by the sweep, its
allocated bit is cleared, and its slot is pushed onto the freelist; in
particular the two-cell pair cycle with no pins is collected in a single
GC pass (both cells destroyed once, no allocated bits remaining, both
slots back on the freelist). -/
theorem unreachable_cells_are_swept :
    (∀ (h : ToyGC.Heap) (st : ToyGC.HeapStorage) (i : Nat),
        h.storage = some st →
        i < ToyGC.HEAP_SIZE →
        ToyGC.getBit st.allocated_bits i = true →
        ¬ ToyGC.Reachable st.objects (h.pins.map Prod.fst) i →
        ((h.gc).2.count i = 1 ∧
         ∃ st2, (h.gc).1.storage = some st2 ∧
           ToyGC.getBit st2.allocated_bits i = false ∧ i ∈ st2.freelist)) ∧
    ((ToyGC.cycleHeap.gc).2 = [123, 124] ∧
      ∃ st2, (ToyGC.cycleHeap.gc).1.storage = some st2 ∧
        st2.allocated_bits.count true = 0 ∧ 123 ∈ st2.freelist ∧ 124 ∈ st2.freelist) := by
  constructor
  · intro h st i hst hlt halloc hunreach
    rw [ToyGC.gc_eq_of_some hst]
    rw [ToyGC.HeapStorage.sweep]
    obtain ⟨hm, ho, hf, hd, hl, ha⟩ :=
      ToyGC.sweep_foldl (List.range ToyGC.HEAP_SIZE) (List.nodup_range _)
        { st with mark_bits :=
            ToyGC.markRoots st.objects h.pins (List.replicate ToyGC.HEAP_SIZE false) } []
    have hmarki :
        ToyGC.getBit (ToyGC.markRoots st.objects h.pins
          (List.replicate ToyGC.HEAP_SIZE false)) i = false := by
      by_contra hc
      have hc2 : ToyGC.getBit (ToyGC.markRoots st.objects h.pins
          (List.replicate ToyGC.HEAP_SIZE false)) i = true := by
        revert hc; cases ToyGC.getBit (ToyGC.markRoots st.objects h.pins
          (List.replicate ToyGC.HEAP_SIZE false)) i <;> simp
      exact hunreach
        (ToyGC.markRoots_sound st.objects (h.pins.map Prod.fst) h.pins _
          (fun pr hpr => ToyGC.Reachable.root (List.mem_map.mpr ⟨pr, hpr, rfl⟩))
          (fun k hk => absurd (ToyGC.getBit_replicate ▸ hk) (by simp))
          i hc2)
    have hq : ToyGC.sweepQ
        { st with
            mark_bits :=
              ToyGC.markRoots st.objects h.pins (List.replicate ToyGC.HEAP_SIZE false) }
        i = true := by
      simp [ToyGC.sweepQ, halloc, hmarki]
    refine ⟨?_, ⟨_, rfl, ?_, ?_⟩⟩
    · rw [hd]
      simp only [List.nil_append]
      exact ToyGC.count_filter_nodup_of_mem (List.nodup_range _)
        (List.mem_range.mpr hlt) hq
    · rw [ha i]
      simp [halloc, hmarki, List.mem_range.mpr hlt]
    · rw [hf]
      refine List.mem_append.mpr (Or.inl ?_)
      rw [List.mem_reverse]
      exact List.mem_filter.mpr ⟨List.mem_range.mpr hlt, hq⟩
  · exact ⟨by decide, ⟨ToyGC.cycleSweptStorage, by decide, by decide, by decide, by decide⟩⟩

set_option maxRecDepth 40000 in
/-- Witness for C1: the unreachable cell 124 of the concrete pair cycle is
destroyed once, deallocated, and back on the freelist after the GC pass. -/
theorem unreachable_cells_are_swept_witness :
    (ToyGC.cycleHeap.gc).2.count 124 = 1 ∧
    ∃ st2, (ToyGC.cycleHeap.gc).1.storage = some st2 ∧
      ToyGC.getBit st2.allocated_bits 124 = false ∧ 124 ∈ st2.freelist := by
  have hpins : ToyGC.cycleHeap.pins.map Prod.fst = [] := by decide
  exact unreachable_cells_are_swept.1 ToyGC.cycleHeap ToyGC.cycleStorage 124
    (by decide) (by decide) (by decide)
    (by rw [hpins]; exact ToyGC.not_reachable_empty_roots _ _)

set_option maxRecDepth 40000 in
/-- C2: every object pinned at GC time (an entry of the pin table) is
marked during the mark phase and survives the sweep: it stays allocated,
is not destroyed, and is not pushed onto the freelist, regardless of
whether any in-heap reference to it exists. -/
theorem pinned_cells_survive_gc :
    ∀ (h : ToyGC.Heap) (st : ToyGC.HeapStorage) (i c : Nat),
      h.storage = some st →
      (i, c) ∈ h.pins →
      i < ToyGC.HEAP_SIZE →
      ToyGC.getBit st.allocated_bits i = true →
      i ∉ st.freelist →
      ∃ st2, (h.gc).1.storage = some st2 ∧
        ToyGC.getBit st2.mark_bits i = true ∧
        ToyGC.getBit st2.allocated_bits i = true ∧
        i ∉ (h.gc).2 ∧
        i ∉ st2.freelist := by
  intro h st i c hst hpin hlt halloc hfree
  rw [ToyGC.gc_eq_of_some hst, ToyGC.HeapStorage.sweep]
  obtain ⟨hm, ho, hf, hd, hl, ha⟩ :=
    ToyGC.sweep_foldl (List.range ToyGC.HEAP_SIZE) (List.nodup_range _)
      { st with mark_bits :=
          ToyGC.markRoots st.objects h.pins (List.replicate ToyGC.HEAP_SIZE false) } []
  have hmarki : ToyGC.getBit (ToyGC.markRoots st.objects h.pins
      (List.replicate ToyGC.HEAP_SIZE false)) i = true :=
    ToyGC.markRoots_marks_pin st.objects h.pins _ i c hpin
      (by rw [List.length_replicate]; exact hlt)
  have hq : ToyGC.sweepQ
      { st with
          mark_bits :=
            ToyGC.markRoots st.objects h.pins (List.replicate ToyGC.HEAP_SIZE false) }
      i = false := by
    simp [ToyGC.sweepQ, hmarki]
  refine ⟨_, rfl, ?_, ?_, ?_, ?_⟩
  · rw [hm]; exact hmarki
  · rw [ha i]
    simp [halloc, hmarki]
  · rw [hd]
    simp only [List.nil_append]
    exact ToyGC.not_mem_filter_of_neg hq
  · rw [hf]
    intro hmem
    rcases List.mem_append.mp hmem with hrev | hold
    · exact ToyGC.not_mem_filter_of_neg hq (List.mem_reverse.mp hrev)
    · exact hfree hold

set_option maxRecDepth 40000 in
/-- Witness for C2: the single pinned cell 124 of the pin scenario is
marked, stays allocated, is not destroyed, and stays off the freelist. -/
theorem pinned_cells_survive_gc_witness :
    ∃ st2, (ToyGC.pinnedHeap.gc).1.storage = some st2 ∧
      ToyGC.getBit st2.mark_bits 124 = true ∧
      ToyGC.getBit st2.allocated_bits 124 = true ∧
      124 ∉ (ToyGC.pinnedHeap.gc).2 ∧
      124 ∉ st2.freelist :=
  pinned_cells_survive_gc ToyGC.pinnedHeap ToyGC.pinnedStorage 124 1
    (by decide) (by decide) (by decide) (by decide) (by decide)

set_option maxRecDepth 40000 in
/-- C7: the freelist invariant (a cell index is on the freelist iff its
allocated bit is clear, with the freelist in range and duplicate-free)
holds after page construction and is preserved by every successful
try_alloc (which sets the bit of the popped cell) and by every sweep
(which clears the bit of each cell it relinks). -/
theorem freelist_iff_unallocated :
    ToyGC.FreelistInv ToyGC.HeapStorage.new ∧
    (∀ (st : ToyGC.HeapStorage) (p : Nat) (st2 : ToyGC.HeapStorage),
        ToyGC.FreelistInv st → st.try_alloc = some (p, st2) → ToyGC.FreelistInv st2) ∧
    (∀ st : ToyGC.HeapStorage,
        ToyGC.FreelistInv st → ToyGC.FreelistInv (st.sweep).1) := by
  refine ⟨by unfold ToyGC.FreelistInv; decide, ?_, ?_⟩
  · intro st p st2 hinv halloc
    obtain ⟨hlen, hnd, hbound, hiff⟩ := hinv
    cases hfl : st.freelist with
    | nil =>
        rw [ToyGC.HeapStorage.try_alloc, hfl] at halloc
        exact absurd halloc (by simp)
    | cons q rest =>
        rw [ToyGC.HeapStorage.try_alloc, hfl] at halloc
        simp only [Option.some.injEq, Prod.mk.injEq] at halloc
        obtain ⟨hq, hst2⟩ := halloc
        subst hq
        subst hst2
        have hqmem : q ∈ st.freelist := by rw [hfl]; exact List.mem_cons_self q rest
        have hqlt : q < ToyGC.HEAP_SIZE := hbound q hqmem
        have hndc := hnd
        rw [hfl] at hndc
        have hqrest : q ∉ rest := (List.nodup_cons.mp hndc).1
        refine ⟨by rw [List.length_set]; exact hlen, (List.nodup_cons.mp hndc).2, ?_, ?_⟩
        · intro i hi
          exact hbound i (by rw [hfl]; exact List.mem_cons_of_mem q hi)
        · intro i hilt
          by_cases hiq : i = q
          · subst hiq
            have : ToyGC.getBit (st.allocated_bits.set i true) i = true :=
              ToyGC.getBit_set_self (by rw [hlen]; exact hqlt)
            simp [hqrest, this]
          · have hne : q ≠ i := fun he => hiq he.symm
            rw [ToyGC.getBit_set_ne hne]
            have := hiff i hilt
            rw [hfl] at this
            simp only [List.mem_cons] at this
            constructor
            · intro hmem
              exact this.mp (Or.inr hmem)
            · intro hbit
              rcases this.mpr hbit with he | hmem
              · exact absurd he hiq
              · exact hmem
  · intro st hinv
    obtain ⟨hlen, hnd, hbound, hiff⟩ := hinv
    rw [ToyGC.HeapStorage.sweep]
    obtain ⟨hm, ho, hf, hd, hl, ha⟩ :=
      ToyGC.sweep_foldl (List.range ToyGC.HEAP_SIZE) (List.nodup_range _) st []
    have hfilter_not_old : ∀ i ∈ (List.range ToyGC.HEAP_SIZE).filter (ToyGC.sweepQ st),
        i ∉ st.freelist := by
      intro i hmf hmem
      have hq := (List.mem_filter.mp hmf).2
      have hrange := (List.mem_filter.mp hmf).1
      have halloc : ToyGC.getBit st.allocated_bits i = true := by
        simp only [ToyGC.sweepQ, Bool.and_eq_true] at hq
        exact hq.1
      have := (hiff i (List.mem_range.mp hrange)).mp hmem
      rw [halloc] at this
      exact absurd this (by simp)
    refine ⟨by rw [hl]; exact hlen, ?_, ?_, ?_⟩
    · rw [hf]
      refine List.Nodup.append
        (List.nodup_reverse.mpr ((List.nodup_range _).filter _)) hnd ?_
      intro a ha1 ha2
      exact hfilter_not_old a (List.mem_reverse.mp ha1) ha2
    · intro i hmem
      rw [hf] at hmem
      rcases List.mem_append.mp hmem with hrev | hold
      · exact List.mem_range.mp (List.mem_filter.mp (List.mem_reverse.mp hrev)).1
      · exact hbound i hold
    · intro i hilt
      rw [hf, ha i]
      have hmemr : i ∈ List.range ToyGC.HEAP_SIZE := List.mem_range.mpr hilt
      constructor
      · intro hmem
        rcases List.mem_append.mp hmem with hrev | hold
        · have hq := (List.mem_filter.mp (List.mem_reverse.mp hrev)).2
          simp only [ToyGC.sweepQ, Bool.and_eq_true, Bool.not_eq_true'] at hq
          simp [hq.1, hq.2, hmemr]
        · have hbit := (hiff i hilt).mp hold
          simp [hbit]
      · intro hbit
        by_cases hA : ToyGC.getBit st.allocated_bits i = true
        · have hM : ToyGC.getBit st.mark_bits i = false := by
            by_contra hMc
            simp only [Bool.not_eq_false] at hMc
            rw [hA, hMc] at hbit
            simp [hmemr] at hbit
          refine List.mem_append.mpr (Or.inl ?_)
          rw [List.mem_reverse]
          refine List.mem_filter.mpr ⟨hmemr, ?_⟩
          simp [ToyGC.sweepQ, hA, hM]
        · simp only [Bool.not_eq_true] at hA
          refine List.mem_append.mpr (Or.inr ?_)
          exact (hiff i hilt).mpr hA

set_option maxRecDepth 40000 in
/-- Witness for C7: the invariant holds on the fresh page and after the
first allocation from it and a sweep of it. -/
theorem freelist_iff_unallocated_witness :
    ToyGC.FreelistInv ToyGC.HeapStorage.new ∧
    ToyGC.FreelistInv
      { ToyGC.HeapStorage.new with
          freelist := (List.range 124).foldl (fun fl i => i :: fl) [],
          allocated_bits := (List.replicate ToyGC.HEAP_SIZE false).set 124 true } ∧
    ToyGC.FreelistInv (ToyGC.HeapStorage.new.sweep).1 := by
  refine ⟨freelist_iff_unallocated.1, ?_, ?_⟩
  · exact freelist_iff_unallocated.2.1 ToyGC.HeapStorage.new 124 _
      freelist_iff_unallocated.1 (by decide)
  · exact freelist_iff_unallocated.2.2 ToyGC.HeapStorage.new freelist_iff_unallocated.1

namespace ToyGC

theorem get_storage_gcCount (h : Heap) : h.get_storage.gcCount = h.gcCount := by
  cases hs : h.storage <;> simp [Heap.get_storage, hs]

theorem get_storage_pins (h : Heap) : h.get_storage.pins = h.pins := by
  cases hs : h.storage <;> simp [Heap.get_storage, hs]

theorem pinCount_pinsInc (l : List (Nat × Nat)) (p : Nat) :
    pinCount (pinsInc l p) p = pinCount l p + 1 := by
  induction l with
  | nil => simp [pinsInc, pinCount]
  | cons a rest ih =>
      obtain ⟨q, c⟩ := a
      by_cases hq : q = p
      · subst hq
        simp [pinsInc, pinCount]
      · simp [pinsInc, pinCount, hq, ih]

end ToyGC

/-- C4: alloc first attempts try_alloc on the page; when the page attempt
succeeds no GC cycle runs and the result is the popped cell, freshly
written and pinned.  When the page attempt fails, exactly one GC cycle
runs and try_alloc is retried once; a successful retry again yields the
freshly written, pinned cell.  When the retry also fails, alloc fails
fatally with the out-of-memory error. -/
theorem alloc_gc_retry_oom :
    ∀ (h : ToyGC.Heap) (fields : ToyGC.PairStorage) (st : ToyGC.HeapStorage),
      h.get_storage.storage = some st →
      ((∀ (p1 : Nat) (st2 : ToyGC.HeapStorage),
          st.try_alloc = some (p1, st2) →
          ∃ h2, h.try_alloc fields = some (p1, h2) ∧
            h2.gcCount = h.gcCount ∧
            h2.storage = some (ToyGC.writeObj st2 p1 fields) ∧
            ToyGC.pinCount h2.pins p1 = ToyGC.pinCount h.pins p1 + 1) ∧
       (∀ (st3 : ToyGC.HeapStorage) (p2 : Nat) (st4 : ToyGC.HeapStorage),
          st.try_alloc = none →
          ((ToyGC.Heap.gc h.get_storage).1).storage = some st3 →
          st3.try_alloc = some (p2, st4) →
          ∃ h2, h.try_alloc fields = some (p2, h2) ∧
            h2.gcCount = h.gcCount + 1 ∧
            h2.storage = some (ToyGC.writeObj st4 p2 fields) ∧
            ToyGC.pinCount h2.pins p2 = ToyGC.pinCount h.pins p2 + 1) ∧
       (∀ st3 : ToyGC.HeapStorage,
          st.try_alloc = none →
          ((ToyGC.Heap.gc h.get_storage).1).storage = some st3 →
          st3.try_alloc = none →
          h.try_alloc fields = none ∧
          h.alloc fields = .error "out of memory (gc did not collect anything)")) := by
  intro h fields st hst
  refine ⟨?_, ?_, ?_⟩
  · intro p1 st2 hta
    refine ⟨ToyGC.Heap.pin
        { h.get_storage with storage := some (ToyGC.writeObj st2 p1 fields) } p1,
      ?_, ?_, ?_, ?_⟩
    · simp only [ToyGC.Heap.try_alloc, hst, hta]
    · simp [ToyGC.Heap.pin, ToyGC.get_storage_gcCount]
    · simp [ToyGC.Heap.pin]
    · simp [ToyGC.Heap.pin, ToyGC.get_storage_pins, ToyGC.pinCount_pinsInc]
  · intro st3 p2 st4 hta hgc htb
    refine ⟨ToyGC.Heap.pin
        { (ToyGC.Heap.gc h.get_storage).1 with
            storage := some (ToyGC.writeObj st4 p2 fields) } p2,
      ?_, ?_, ?_, ?_⟩
    · simp only [ToyGC.Heap.try_alloc, hst, hta, hgc, htb]
    · have hcount : ((ToyGC.Heap.gc h.get_storage).1).gcCount = h.gcCount + 1 := by
        rw [ToyGC.gc_eq_of_some hst]
        simp [ToyGC.get_storage_gcCount]
      simp [ToyGC.Heap.pin, hcount]
    · simp [ToyGC.Heap.pin]
    · have hpins : ((ToyGC.Heap.gc h.get_storage).1).pins = h.pins := by
        rw [ToyGC.gc_eq_of_some hst]
        simp [ToyGC.get_storage_pins]
      simp [ToyGC.Heap.pin, hpins, ToyGC.pinCount_pinsInc]
  · intro st3 hta hgc htb
    have hnone : h.try_alloc fields = none := by
      simp only [ToyGC.Heap.try_alloc, hst, hta, hgc, htb]
    exact ⟨hnone, by rw [ToyGC.Heap.alloc, hnone]⟩

set_option maxRecDepth 40000 in
/-- Witness for C4: allocating from a fresh session succeeds on the first
page attempt, writes the fields into cell 124, pins it, and runs no GC. -/
theorem alloc_gc_retry_oom_witness :
    ∃ h2, ToyGC.Heap.new.try_alloc ⟨.Int 7, .Null⟩ = some (124, h2) ∧
      h2.gcCount = ToyGC.Heap.new.gcCount ∧
      h2.storage = some (ToyGC.writeObj
        { ToyGC.HeapStorage.new with
            freelist := (List.range 124).foldl (fun fl i => i :: fl) [],
            allocated_bits := (List.replicate ToyGC.HEAP_SIZE false).set 124 true }
        124 ⟨.Int 7, .Null⟩) ∧
      ToyGC.pinCount h2.pins 124 = ToyGC.pinCount ToyGC.Heap.new.pins 124 + 1 :=
  (alloc_gc_retry_oom ToyGC.Heap.new ⟨.Int 7, .Null⟩ ToyGC.HeapStorage.new
    (by decide)).1 124 _ (by decide)

namespace Lisp

theorem eval_zero (st : Store) (e env : Value) : eval 0 st e env = .error .noFuel := rfl

theorem eval_succ (f : Nat) (st : Store) (e env : Value) :
    eval (f + 1) st e env = evalStep (eval f) (apply f) st e env := rfl

theorem apply_zero (st : Store) (fv : Value) (args : List Value) :
    apply 0 st fv args = .error .noFuel := rfl

theorem apply_succ (f : Nat) (st : Store) (fv : Value) (args : List Value) :
    apply (f + 1) st fv args = applyStep (eval f) st fv args := rfl

end Lisp

namespace Lisp

/-- Reads below index 37 see the loopIterPairs prefix, whatever was
appended after it. -/
theorem lp_read_car (n : HostInt) (rest : List (Value × Value)) (i : Nat) (h : i < 37) :
    Store.car ⟨loopIterPairs n ++ rest⟩ i = Store.car ⟨loopIterPairs n⟩ i := by
  have h' : i < (loopIterPairs n).length := h
  simp only [Store.car, List.getD_append _ _ _ _ h']

theorem lp_read_cdr (n : HostInt) (rest : List (Value × Value)) (i : Nat) (h : i < 37) :
    Store.cdr ⟨loopIterPairs n ++ rest⟩ i = Store.cdr ⟨loopIterPairs n⟩ i := by
  have h' : i < (loopIterPairs n).length := h
  simp only [Store.cdr, List.getD_append _ _ _ _ h']

theorem lpr_len (n : HostInt) (rest : List (Value × Value)) :
    (Store.mk (loopIterPairs n ++ rest)).pairs.length = 37 + rest.length := by
  simp [loopIterPairs]; omega

theorem lpr_car_0 (n : HostInt) (rest : List (Value × Value)) :
    Store.car ⟨loopIterPairs n ++ rest⟩ 0 = Value.Symbol "eq?" := by
  rw [lp_read_car n rest 0 (by decide)]; rfl

theorem lpr_cdr_0 (n : HostInt) (rest : List (Value × Value)) :
    Store.cdr ⟨loopIterPairs n ++ rest⟩ 0 = Value.Builtin 0 := by
  rw [lp_read_cdr n rest 0 (by decide)]; rfl

theorem lpr_car_1 (n : HostInt) (rest : List (Value × Value)) :
    Store.car ⟨loopIterPairs n ++ rest⟩ 1 = Value.Cons 0 := by
  rw [lp_read_car n rest 1 (by decide)]; rfl

theorem lpr_cdr_1 (n : HostInt) (rest : List (Value × Value)) :
    Store.cdr ⟨loopIterPairs n ++ rest⟩ 1 = Value.Nil := by
  rw [lp_read_cdr n rest 1 (by decide)]; rfl

theorem lpr_car_2 (n : HostInt) (rest : List (Value × Value)) :
    Store.car ⟨loopIterPairs n ++ rest⟩ 2 = Value.Symbol "-" := by
  rw [lp_read_car n rest 2 (by decide)]; rfl

theorem lpr_cdr_2 (n : HostInt) (rest : List (Value × Value)) :
    Store.cdr ⟨loopIterPairs n ++ rest⟩ 2 = Value.Builtin 1 := by
  rw [lp_read_cdr n rest 2 (by decide)]; rfl

theorem lpr_car_3 (n : HostInt) (rest : List (Value × Value)) :
    Store.car ⟨loopIterPairs n ++ rest⟩ 3 = Value.Cons 2 := by
  rw [lp_read_car n rest 3 (by decide)]; rfl

theorem lpr_cdr_3 (n : HostInt) (rest : List (Value × Value)) :
    Store.cdr ⟨loopIterPairs n ++ rest⟩ 3 = Value.Cons 1 := by
  rw [lp_read_cdr n rest 3 (by decide)]; rfl

theorem lpr_car_4 (n : HostInt) (rest : List (Value × Value)) :
    Store.car ⟨loopIterPairs n ++ rest⟩ 4 = Value.Int 0 := by
  rw [lp_read_car n rest 4 (by decide)]; rfl

theorem lpr_cdr_4 (n : HostInt) (rest : List (Value × Value)) :
    Store.cdr ⟨loopIterPairs n ++ rest⟩ 4 = Value.Nil := by
  rw [lp_read_cdr n rest 4 (by decide)]; rfl

theorem lpr_car_5 (n : HostInt) (rest : List (Value × Value)) :
    Store.car ⟨loopIterPairs n ++ rest⟩ 5 = Value.Symbol "n" := by
  rw [lp_read_car n rest 5 (by decide)]; rfl

theorem lpr_cdr_5 (n : HostInt) (rest : List (Value × Value)) :
    Store.cdr ⟨loopIterPairs n ++ rest⟩ 5 = Value.Cons 4 := by
  rw [lp_read_cdr n rest 5 (by decide)]; rfl

theorem lpr_car_6 (n : HostInt) (rest : List (Value × Value)) :
    Store.car ⟨loopIterPairs n ++ rest⟩ 6 = Value.Symbol "eq?" := by
  rw [lp_read_car n rest 6 (by decide)]; rfl

theorem lpr_cdr_6 (n : HostInt) (rest : List (Value × Value)) :
    Store.cdr ⟨loopIterPairs n ++ rest⟩ 6 = Value.Cons 5 := by
  rw [lp_read_cdr n rest 6 (by decide)]; rfl

theorem lpr_car_7 (n : HostInt) (rest : List (Value × Value)) :
    Store.car ⟨loopIterPairs n ++ rest⟩ 7 = Value.Symbol "done" := by
  rw [lp_read_car n rest 7 (by decide)]; rfl

theorem lpr_cdr_7 (n : HostInt) (rest : List (Value × Value)) :
    Store.cdr ⟨loopIterPairs n ++ rest⟩ 7 = Value.Nil := by
  rw [lp_read_cdr n rest 7 (by decide)]; rfl

theorem lpr_car_8 (n : HostInt) (rest : List (Value × Value)) :
    Store.car ⟨loopIterPairs n ++ rest⟩ 8 = Value.Symbol "quote" := by
  rw [lp_read_car n rest 8 (by decide)]; rfl

theorem lpr_cdr_8 (n : HostInt) (rest : List (Value × Value)) :
    Store.cdr ⟨loopIterPairs n ++ rest⟩ 8 = Value.Cons 7 := by
  rw [lp_read_cdr n rest 8 (by decide)]; rfl

theorem lpr_car_9 (n : HostInt) (rest : List (Value × Value)) :
    Store.car ⟨loopIterPairs n ++ rest⟩ 9 = Value.Int 1 := by
  rw [lp_read_car n rest 9 (by decide)]; rfl

theorem lpr_cdr_9 (n : HostInt) (rest : List (Value × Value)) :
    Store.cdr ⟨loopIterPairs n ++ rest⟩ 9 = Value.Nil := by
  rw [lp_read_cdr n rest 9 (by decide)]; rfl

theorem lpr_car_10 (n : HostInt) (rest : List (Value × Value)) :
    Store.car ⟨loopIterPairs n ++ rest⟩ 10 = Value.Symbol "n" := by
  rw [lp_read_car n rest 10 (by decide)]; rfl

theorem lpr_cdr_10 (n : HostInt) (rest : List (Value × Value)) :
    Store.cdr ⟨loopIterPairs n ++ rest⟩ 10 = Value.Cons 9 := by
  rw [lp_read_cdr n rest 10 (by decide)]; rfl

theorem lpr_car_11 (n : HostInt) (rest : List (Value × Value)) :
    Store.car ⟨loopIterPairs n ++ rest⟩ 11 = Value.Symbol "-" := by
  rw [lp_read_car n rest 11 (by decide)]; rfl

theorem lpr_cdr_11 (n : HostInt) (rest : List (Value × Value)) :
    Store.cdr ⟨loopIterPairs n ++ rest⟩ 11 = Value.Cons 10 := by
  rw [lp_read_cdr n rest 11 (by decide)]; rfl

theorem lpr_car_12 (n : HostInt) (rest : List (Value × Value)) :
    Store.car ⟨loopIterPairs n ++ rest⟩ 12 = Value.Cons 11 := by
  rw [lp_read_car n rest 12 (by decide)]; rfl

theorem lpr_cdr_12 (n : HostInt) (rest : List (Value × Value)) :
    Store.cdr ⟨loopIterPairs n ++ rest⟩ 12 = Value.Nil := by
  rw [lp_read_cdr n rest 12 (by decide)]; rfl

theorem lpr_car_13 (n : HostInt) (rest : List (Value × Value)) :
    Store.car ⟨loopIterPairs n ++ rest⟩ 13 = Value.Symbol "loop" := by
  rw [lp_read_car n rest 13 (by decide)]; rfl

theorem lpr_cdr_13 (n : HostInt) (rest : List (Value × Value)) :
    Store.cdr ⟨loopIterPairs n ++ rest⟩ 13 = Value.Cons 12 := by
  rw [lp_read_cdr n rest 13 (by decide)]; rfl

theorem lpr_car_14 (n : HostInt) (rest : List (Value × Value)) :
    Store.car ⟨loopIterPairs n ++ rest⟩ 14 = Value.Cons 13 := by
  rw [lp_read_car n rest 14 (by decide)]; rfl

theorem lpr_cdr_14 (n : HostInt) (rest : List (Value × Value)) :
    Store.cdr ⟨loopIterPairs n ++ rest⟩ 14 = Value.Nil := by
  rw [lp_read_cdr n rest 14 (by decide)]; rfl

theorem lpr_car_15 (n : HostInt) (rest : List (Value × Value)) :
    Store.car ⟨loopIterPairs n ++ rest⟩ 15 = Value.Cons 8 := by
  rw [lp_read_car n rest 15 (by decide)]; rfl

theorem lpr_cdr_15 (n : HostInt) (rest : List (Value × Value)) :
    Store.cdr ⟨loopIterPairs n ++ rest⟩ 15 = Value.Cons 14 := by
  rw [lp_read_cdr n rest 15 (by decide)]; rfl

theorem lpr_car_16 (n : HostInt) (rest : List (Value × Value)) :
    Store.car ⟨loopIterPairs n ++ rest⟩ 16 = Value.Cons 6 := by
  rw [lp_read_car n rest 16 (by decide)]; rfl

theorem lpr_cdr_16 (n : HostInt) (rest : List (Value × Value)) :
    Store.cdr ⟨loopIterPairs n ++ rest⟩ 16 = Value.Cons 15 := by
  rw [lp_read_cdr n rest 16 (by decide)]; rfl

theorem lpr_car_17 (n : HostInt) (rest : List (Value × Value)) :
    Store.car ⟨loopIterPairs n ++ rest⟩ 17 = Value.Symbol "if" := by
  rw [lp_read_car n rest 17 (by decide)]; rfl

theorem lpr_cdr_17 (n : HostInt) (rest : List (Value × Value)) :
    Store.cdr ⟨loopIterPairs n ++ rest⟩ 17 = Value.Cons 16 := by
  rw [lp_read_cdr n rest 17 (by decide)]; rfl

theorem lpr_car_18 (n : HostInt) (rest : List (Value × Value)) :
    Store.car ⟨loopIterPairs n ++ rest⟩ 18 = Value.Symbol "n" := by
  rw [lp_read_car n rest 18 (by decide)]; rfl

theorem lpr_cdr_18 (n : HostInt) (rest : List (Value × Value)) :
    Store.cdr ⟨loopIterPairs n ++ rest⟩ 18 = Value.Nil := by
  rw [lp_read_cdr n rest 18 (by decide)]; rfl

theorem lpr_car_19 (n : HostInt) (rest : List (Value × Value)) :
    Store.car ⟨loopIterPairs n ++ rest⟩ 19 = Value.Cons 17 := by
  rw [lp_read_car n rest 19 (by decide)]; rfl

theorem lpr_cdr_19 (n : HostInt) (rest : List (Value × Value)) :
    Store.cdr ⟨loopIterPairs n ++ rest⟩ 19 = Value.Nil := by
  rw [lp_read_cdr n rest 19 (by decide)]; rfl

theorem lpr_car_20 (n : HostInt) (rest : List (Value × Value)) :
    Store.car ⟨loopIterPairs n ++ rest⟩ 20 = Value.Cons 18 := by
  rw [lp_read_car n rest 20 (by decide)]; rfl

theorem lpr_cdr_20 (n : HostInt) (rest : List (Value × Value)) :
    Store.cdr ⟨loopIterPairs n ++ rest⟩ 20 = Value.Cons 19 := by
  rw [lp_read_cdr n rest 20 (by decide)]; rfl

theorem lpr_car_21 (n : HostInt) (rest : List (Value × Value)) :
    Store.car ⟨loopIterPairs n ++ rest⟩ 21 = Value.Symbol "lambda" := by
  rw [lp_read_car n rest 21 (by decide)]; rfl

theorem lpr_cdr_21 (n : HostInt) (rest : List (Value × Value)) :
    Store.cdr ⟨loopIterPairs n ++ rest⟩ 21 = Value.Cons 20 := by
  rw [lp_read_cdr n rest 21 (by decide)]; rfl

theorem lpr_car_22 (n : HostInt) (rest : List (Value × Value)) :
    Store.car ⟨loopIterPairs n ++ rest⟩ 22 = Value.Int 0 := by
  rw [lp_read_car n rest 22 (by decide)]; rfl

theorem lpr_cdr_22 (n : HostInt) (rest : List (Value × Value)) :
    Store.cdr ⟨loopIterPairs n ++ rest⟩ 22 = Value.Nil := by
  rw [lp_read_cdr n rest 22 (by decide)]; rfl

theorem lpr_car_23 (n : HostInt) (rest : List (Value × Value)) :
    Store.car ⟨loopIterPairs n ++ rest⟩ 23 = Value.Symbol "loop" := by
  rw [lp_read_car n rest 23 (by decide)]; rfl

theorem lpr_cdr_23 (n : HostInt) (rest : List (Value × Value)) :
    Store.cdr ⟨loopIterPairs n ++ rest⟩ 23 = Value.Cons 22 := by
  rw [lp_read_cdr n rest 23 (by decide)]; rfl

theorem lpr_car_24 (n : HostInt) (rest : List (Value × Value)) :
    Store.car ⟨loopIterPairs n ++ rest⟩ 24 = Value.Symbol "define" := by
  rw [lp_read_car n rest 24 (by decide)]; rfl

theorem lpr_cdr_24 (n : HostInt) (rest : List (Value × Value)) :
    Store.cdr ⟨loopIterPairs n ++ rest⟩ 24 = Value.Cons 23 := by
  rw [lp_read_cdr n rest 24 (by decide)]; rfl

theorem lpr_car_25 (n : HostInt) (rest : List (Value × Value)) :
    Store.car ⟨loopIterPairs n ++ rest⟩ 25 = Value.Cons 21 := by
  rw [lp_read_car n rest 25 (by decide)]; rfl

theorem lpr_cdr_25 (n : HostInt) (rest : List (Value × Value)) :
    Store.cdr ⟨loopIterPairs n ++ rest⟩ 25 = Value.Nil := by
  rw [lp_read_cdr n rest 25 (by decide)]; rfl

theorem lpr_car_26 (n : HostInt) (rest : List (Value × Value)) :
    Store.car ⟨loopIterPairs n ++ rest⟩ 26 = Value.Symbol "loop" := by
  rw [lp_read_car n rest 26 (by decide)]; rfl

theorem lpr_cdr_26 (n : HostInt) (rest : List (Value × Value)) :
    Store.cdr ⟨loopIterPairs n ++ rest⟩ 26 = Value.Cons 25 := by
  rw [lp_read_cdr n rest 26 (by decide)]; rfl

theorem lpr_car_27 (n : HostInt) (rest : List (Value × Value)) :
    Store.car ⟨loopIterPairs n ++ rest⟩ 27 = Value.Symbol "set!" := by
  rw [lp_read_car n rest 27 (by decide)]; rfl

theorem lpr_cdr_27 (n : HostInt) (rest : List (Value × Value)) :
    Store.cdr ⟨loopIterPairs n ++ rest⟩ 27 = Value.Cons 26 := by
  rw [lp_read_cdr n rest 27 (by decide)]; rfl

theorem lpr_car_28 (n : HostInt) (rest : List (Value × Value)) :
    Store.car ⟨loopIterPairs n ++ rest⟩ 28 = Value.Int n := by
  rw [lp_read_car n rest 28 (by decide)]; rfl

theorem lpr_cdr_28 (n : HostInt) (rest : List (Value × Value)) :
    Store.cdr ⟨loopIterPairs n ++ rest⟩ 28 = Value.Nil := by
  rw [lp_read_cdr n rest 28 (by decide)]; rfl

theorem lpr_car_29 (n : HostInt) (rest : List (Value × Value)) :
    Store.car ⟨loopIterPairs n ++ rest⟩ 29 = Value.Symbol "loop" := by
  rw [lp_read_car n rest 29 (by decide)]; rfl

theorem lpr_cdr_29 (n : HostInt) (rest : List (Value × Value)) :
    Store.cdr ⟨loopIterPairs n ++ rest⟩ 29 = Value.Cons 28 := by
  rw [lp_read_cdr n rest 29 (by decide)]; rfl

theorem lpr_car_30 (n : HostInt) (rest : List (Value × Value)) :
    Store.car ⟨loopIterPairs n ++ rest⟩ 30 = Value.Cons 29 := by
  rw [lp_read_car n rest 30 (by decide)]; rfl

theorem lpr_cdr_30 (n : HostInt) (rest : List (Value × Value)) :
    Store.cdr ⟨loopIterPairs n ++ rest⟩ 30 = Value.Nil := by
  rw [lp_read_cdr n rest 30 (by decide)]; rfl

theorem lpr_car_31 (n : HostInt) (rest : List (Value × Value)) :
    Store.car ⟨loopIterPairs n ++ rest⟩ 31 = Value.Cons 27 := by
  rw [lp_read_car n rest 31 (by decide)]; rfl

theorem lpr_cdr_31 (n : HostInt) (rest : List (Value × Value)) :
    Store.cdr ⟨loopIterPairs n ++ rest⟩ 31 = Value.Cons 30 := by
  rw [lp_read_cdr n rest 31 (by decide)]; rfl

theorem lpr_car_32 (n : HostInt) (rest : List (Value × Value)) :
    Store.car ⟨loopIterPairs n ++ rest⟩ 32 = Value.Cons 24 := by
  rw [lp_read_car n rest 32 (by decide)]; rfl

theorem lpr_cdr_32 (n : HostInt) (rest : List (Value × Value)) :
    Store.cdr ⟨loopIterPairs n ++ rest⟩ 32 = Value.Cons 31 := by
  rw [lp_read_cdr n rest 32 (by decide)]; rfl

theorem lpr_car_33 (n : HostInt) (rest : List (Value × Value)) :
    Store.car ⟨loopIterPairs n ++ rest⟩ 33 = Value.Symbol "begin" := by
  rw [lp_read_car n rest 33 (by decide)]; rfl

theorem lpr_cdr_33 (n : HostInt) (rest : List (Value × Value)) :
    Store.cdr ⟨loopIterPairs n ++ rest⟩ 33 = Value.Cons 32 := by
  rw [lp_read_cdr n rest 33 (by decide)]; rfl

theorem lpr_car_34 (n : HostInt) (rest : List (Value × Value)) :
    Store.car ⟨loopIterPairs n ++ rest⟩ 34 = Value.Symbol "loop" := by
  rw [lp_read_car n rest 34 (by decide)]; rfl

theorem lpr_cdr_34 (n : HostInt) (rest : List (Value × Value)) :
    Store.cdr ⟨loopIterPairs n ++ rest⟩ 34 = Value.Lambda 36 := by
  rw [lp_read_cdr n rest 34 (by decide)]; rfl

theorem lpr_car_35 (n : HostInt) (rest : List (Value × Value)) :
    Store.car ⟨loopIterPairs n ++ rest⟩ 35 = Value.Cons 34 := by
  rw [lp_read_car n rest 35 (by decide)]; rfl

theorem lpr_cdr_35 (n : HostInt) (rest : List (Value × Value)) :
    Store.cdr ⟨loopIterPairs n ++ rest⟩ 35 = Value.Cons 3 := by
  rw [lp_read_cdr n rest 35 (by decide)]; rfl

theorem lpr_car_36 (n : HostInt) (rest : List (Value × Value)) :
    Store.car ⟨loopIterPairs n ++ rest⟩ 36 = Value.Cons 20 := by
  rw [lp_read_car n rest 36 (by decide)]; rfl

theorem lpr_cdr_36 (n : HostInt) (rest : List (Value × Value)) :
    Store.cdr ⟨loopIterPairs n ++ rest⟩ 36 = Value.Cons 35 := by
  rw [lp_read_cdr n rest 36 (by decide)]; rfl

end Lisp

namespace Lisp

theorem iter_car_0 (n k : HostInt) (extra : List (Value × Value)) :
    Store.car (iterStore n k extra) 0 = Value.Symbol "eq?" := lpr_car_0 n _

theorem iter_cdr_0 (n k : HostInt) (extra : List (Value × Value)) :
    Store.cdr (iterStore n k extra) 0 = Value.Builtin 0 := lpr_cdr_0 n _

theorem iter_car_1 (n k : HostInt) (extra : List (Value × Value)) :
    Store.car (iterStore n k extra) 1 = Value.Cons 0 := lpr_car_1 n _

theorem iter_cdr_1 (n k : HostInt) (extra : List (Value × Value)) :
    Store.cdr (iterStore n k extra) 1 = Value.Nil := lpr_cdr_1 n _

theorem iter_car_2 (n k : HostInt) (extra : List (Value × Value)) :
    Store.car (iterStore n k extra) 2 = Value.Symbol "-" := lpr_car_2 n _

theorem iter_cdr_2 (n k : HostInt) (extra : List (Value × Value)) :
    Store.cdr (iterStore n k extra) 2 = Value.Builtin 1 := lpr_cdr_2 n _

theorem iter_car_3 (n k : HostInt) (extra : List (Value × Value)) :
    Store.car (iterStore n k extra) 3 = Value.Cons 2 := lpr_car_3 n _

theorem iter_cdr_3 (n k : HostInt) (extra : List (Value × Value)) :
    Store.cdr (iterStore n k extra) 3 = Value.Cons 1 := lpr_cdr_3 n _

theorem iter_car_4 (n k : HostInt) (extra : List (Value × Value)) :
    Store.car (iterStore n k extra) 4 = Value.Int 0 := lpr_car_4 n _

theorem iter_cdr_4 (n k : HostInt) (extra : List (Value × Value)) :
    Store.cdr (iterStore n k extra) 4 = Value.Nil := lpr_cdr_4 n _

theorem iter_car_5 (n k : HostInt) (extra : List (Value × Value)) :
    Store.car (iterStore n k extra) 5 = Value.Symbol "n" := lpr_car_5 n _

theorem iter_cdr_5 (n k : HostInt) (extra : List (Value × Value)) :
    Store.cdr (iterStore n k extra) 5 = Value.Cons 4 := lpr_cdr_5 n _

theorem iter_car_6 (n k : HostInt) (extra : List (Value × Value)) :
    Store.car (iterStore n k extra) 6 = Value.Symbol "eq?" := lpr_car_6 n _

theorem iter_cdr_6 (n k : HostInt) (extra : List (Value × Value)) :
    Store.cdr (iterStore n k extra) 6 = Value.Cons 5 := lpr_cdr_6 n _

theorem iter_car_7 (n k : HostInt) (extra : List (Value × Value)) :
    Store.car (iterStore n k extra) 7 = Value.Symbol "done" := lpr_car_7 n _

theorem iter_cdr_7 (n k : HostInt) (extra : List (Value × Value)) :
    Store.cdr (iterStore n k extra) 7 = Value.Nil := lpr_cdr_7 n _

theorem iter_car_8 (n k : HostInt) (extra : List (Value × Value)) :
    Store.car (iterStore n k extra) 8 = Value.Symbol "quote" := lpr_car_8 n _

theorem iter_cdr_8 (n k : HostInt) (extra : List (Value × Value)) :
    Store.cdr (iterStore n k extra) 8 = Value.Cons 7 := lpr_cdr_8 n _

theorem iter_car_9 (n k : HostInt) (extra : List (Value × Value)) :
    Store.car (iterStore n k extra) 9 = Value.Int 1 := lpr_car_9 n _

theorem iter_cdr_9 (n k : HostInt) (extra : List (Value × Value)) :
    Store.cdr (iterStore n k extra) 9 = Value.Nil := lpr_cdr_9 n _

theorem iter_car_10 (n k : HostInt) (extra : List (Value × Value)) :
    Store.car (iterStore n k extra) 10 = Value.Symbol "n" := lpr_car_10 n _

theorem iter_cdr_10 (n k : HostInt) (extra : List (Value × Value)) :
    Store.cdr (iterStore n k extra) 10 = Value.Cons 9 := lpr_cdr_10 n _

theorem iter_car_11 (n k : HostInt) (extra : List (Value × Value)) :
    Store.car (iterStore n k extra) 11 = Value.Symbol "-" := lpr_car_11 n _

theorem iter_cdr_11 (n k : HostInt) (extra : List (Value × Value)) :
    Store.cdr (iterStore n k extra) 11 = Value.Cons 10 := lpr_cdr_11 n _

theorem iter_car_12 (n k : HostInt) (extra : List (Value × Value)) :
    Store.car (iterStore n k extra) 12 = Value.Cons 11 := lpr_car_12 n _

theorem iter_cdr_12 (n k : HostInt) (extra : List (Value × Value)) :
    Store.cdr (iterStore n k extra) 12 = Value.Nil := lpr_cdr_12 n _

theorem iter_car_13 (n k : HostInt) (extra : List (Value × Value)) :
    Store.car (iterStore n k extra) 13 = Value.Symbol "loop" := lpr_car_13 n _

theorem iter_cdr_13 (n k : HostInt) (extra : List (Value × Value)) :
    Store.cdr (iterStore n k extra) 13 = Value.Cons 12 := lpr_cdr_13 n _

theorem iter_car_14 (n k : HostInt) (extra : List (Value × Value)) :
    Store.car (iterStore n k extra) 14 = Value.Cons 13 := lpr_car_14 n _

theorem iter_cdr_14 (n k : HostInt) (extra : List (Value × Value)) :
    Store.cdr (iterStore n k extra) 14 = Value.Nil := lpr_cdr_14 n _

theorem iter_car_15 (n k : HostInt) (extra : List (Value × Value)) :
    Store.car (iterStore n k extra) 15 = Value.Cons 8 := lpr_car_15 n _

theorem iter_cdr_15 (n k : HostInt) (extra : List (Value × Value)) :
    Store.cdr (iterStore n k extra) 15 = Value.Cons 14 := lpr_cdr_15 n _

theorem iter_car_16 (n k : HostInt) (extra : List (Value × Value)) :
    Store.car (iterStore n k extra) 16 = Value.Cons 6 := lpr_car_16 n _

theorem iter_cdr_16 (n k : HostInt) (extra : List (Value × Value)) :
    Store.cdr (iterStore n k extra) 16 = Value.Cons 15 := lpr_cdr_16 n _

theorem iter_car_17 (n k : HostInt) (extra : List (Value × Value)) :
    Store.car (iterStore n k extra) 17 = Value.Symbol "if" := lpr_car_17 n _

theorem iter_cdr_17 (n k : HostInt) (extra : List (Value × Value)) :
    Store.cdr (iterStore n k extra) 17 = Value.Cons 16 := lpr_cdr_17 n _

theorem iter_car_18 (n k : HostInt) (extra : List (Value × Value)) :
    Store.car (iterStore n k extra) 18 = Value.Symbol "n" := lpr_car_18 n _

theorem iter_cdr_18 (n k : HostInt) (extra : List (Value × Value)) :
    Store.cdr (iterStore n k extra) 18 = Value.Nil := lpr_cdr_18 n _

theorem iter_car_19 (n k : HostInt) (extra : List (Value × Value)) :
    Store.car (iterStore n k extra) 19 = Value.Cons 17 := lpr_car_19 n _

theorem iter_cdr_19 (n k : HostInt) (extra : List (Value × Value)) :
    Store.cdr (iterStore n k extra) 19 = Value.Nil := lpr_cdr_19 n _

theorem iter_car_20 (n k : HostInt) (extra : List (Value × Value)) :
    Store.car (iterStore n k extra) 20 = Value.Cons 18 := lpr_car_20 n _

theorem iter_cdr_20 (n k : HostInt) (extra : List (Value × Value)) :
    Store.cdr (iterStore n k extra) 20 = Value.Cons 19 := lpr_cdr_20 n _

theorem iter_car_21 (n k : HostInt) (extra : List (Value × Value)) :
    Store.car (iterStore n k extra) 21 = Value.Symbol "lambda" := lpr_car_21 n _

theorem iter_cdr_21 (n k : HostInt) (extra : List (Value × Value)) :
    Store.cdr (iterStore n k extra) 21 = Value.Cons 20 := lpr_cdr_21 n _

theorem iter_car_22 (n k : HostInt) (extra : List (Value × Value)) :
    Store.car (iterStore n k extra) 22 = Value.Int 0 := lpr_car_22 n _

theorem iter_cdr_22 (n k : HostInt) (extra : List (Value × Value)) :
    Store.cdr (iterStore n k extra) 22 = Value.Nil := lpr_cdr_22 n _

theorem iter_car_23 (n k : HostInt) (extra : List (Value × Value)) :
    Store.car (iterStore n k extra) 23 = Value.Symbol "loop" := lpr_car_23 n _

theorem iter_cdr_23 (n k : HostInt) (extra : List (Value × Value)) :
    Store.cdr (iterStore n k extra) 23 = Value.Cons 22 := lpr_cdr_23 n _

theorem iter_car_24 (n k : HostInt) (extra : List (Value × Value)) :
    Store.car (iterStore n k extra) 24 = Value.Symbol "define" := lpr_car_24 n _

theorem iter_cdr_24 (n k : HostInt) (extra : List (Value × Value)) :
    Store.cdr (iterStore n k extra) 24 = Value.Cons 23 := lpr_cdr_24 n _

theorem iter_car_25 (n k : HostInt) (extra : List (Value × Value)) :
    Store.car (iterStore n k extra) 25 = Value.Cons 21 := lpr_car_25 n _

theorem iter_cdr_25 (n k : HostInt) (extra : List (Value × Value)) :
    Store.cdr (iterStore n k extra) 25 = Value.Nil := lpr_cdr_25 n _

theorem iter_car_26 (n k : HostInt) (extra : List (Value × Value)) :
    Store.car (iterStore n k extra) 26 = Value.Symbol "loop" := lpr_car_26 n _

theorem iter_cdr_26 (n k : HostInt) (extra : List (Value × Value)) :
    Store.cdr (iterStore n k extra) 26 = Value.Cons 25 := lpr_cdr_26 n _

theorem iter_car_27 (n k : HostInt) (extra : List (Value × Value)) :
    Store.car (iterStore n k extra) 27 = Value.Symbol "set!" := lpr_car_27 n _

theorem iter_cdr_27 (n k : HostInt) (extra : List (Value × Value)) :
    Store.cdr (iterStore n k extra) 27 = Value.Cons 26 := lpr_cdr_27 n _

theorem iter_car_28 (n k : HostInt) (extra : List (Value × Value)) :
    Store.car (iterStore n k extra) 28 = Value.Int n := lpr_car_28 n _

theorem iter_cdr_28 (n k : HostInt) (extra : List (Value × Value)) :
    Store.cdr (iterStore n k extra) 28 = Value.Nil := lpr_cdr_28 n _

theorem iter_car_29 (n k : HostInt) (extra : List (Value × Value)) :
    Store.car (iterStore n k extra) 29 = Value.Symbol "loop" := lpr_car_29 n _

theorem iter_cdr_29 (n k : HostInt) (extra : List (Value × Value)) :
    Store.cdr (iterStore n k extra) 29 = Value.Cons 28 := lpr_cdr_29 n _

theorem iter_car_30 (n k : HostInt) (extra : List (Value × Value)) :
    Store.car (iterStore n k extra) 30 = Value.Cons 29 := lpr_car_30 n _

theorem iter_cdr_30 (n k : HostInt) (extra : List (Value × Value)) :
    Store.cdr (iterStore n k extra) 30 = Value.Nil := lpr_cdr_30 n _

theorem iter_car_31 (n k : HostInt) (extra : List (Value × Value)) :
    Store.car (iterStore n k extra) 31 = Value.Cons 27 := lpr_car_31 n _

theorem iter_cdr_31 (n k : HostInt) (extra : List (Value × Value)) :
    Store.cdr (iterStore n k extra) 31 = Value.Cons 30 := lpr_cdr_31 n _

theorem iter_car_32 (n k : HostInt) (extra : List (Value × Value)) :
    Store.car (iterStore n k extra) 32 = Value.Cons 24 := lpr_car_32 n _

theorem iter_cdr_32 (n k : HostInt) (extra : List (Value × Value)) :
    Store.cdr (iterStore n k extra) 32 = Value.Cons 31 := lpr_cdr_32 n _

theorem iter_car_33 (n k : HostInt) (extra : List (Value × Value)) :
    Store.car (iterStore n k extra) 33 = Value.Symbol "begin" := lpr_car_33 n _

theorem iter_cdr_33 (n k : HostInt) (extra : List (Value × Value)) :
    Store.cdr (iterStore n k extra) 33 = Value.Cons 32 := lpr_cdr_33 n _

theorem iter_car_34 (n k : HostInt) (extra : List (Value × Value)) :
    Store.car (iterStore n k extra) 34 = Value.Symbol "loop" := lpr_car_34 n _

theorem iter_cdr_34 (n k : HostInt) (extra : List (Value × Value)) :
    Store.cdr (iterStore n k extra) 34 = Value.Lambda 36 := lpr_cdr_34 n _

theorem iter_car_35 (n k : HostInt) (extra : List (Value × Value)) :
    Store.car (iterStore n k extra) 35 = Value.Cons 34 := lpr_car_35 n _

theorem iter_cdr_35 (n k : HostInt) (extra : List (Value × Value)) :
    Store.cdr (iterStore n k extra) 35 = Value.Cons 3 := lpr_cdr_35 n _

theorem iter_car_36 (n k : HostInt) (extra : List (Value × Value)) :
    Store.car (iterStore n k extra) 36 = Value.Cons 20 := lpr_car_36 n _

theorem iter_cdr_36 (n k : HostInt) (extra : List (Value × Value)) :
    Store.cdr (iterStore n k extra) 36 = Value.Cons 35 := lpr_cdr_36 n _

theorem iter_len (n k : HostInt) (extra : List (Value × Value)) :
    (iterStore n k extra).pairs.length = 39 + extra.length := by
  simp [iterStore, loopIterPairs]; omega

theorem iter_read_rib (n k : HostInt) (extra : List (Value × Value)) :
    (iterStore n k extra).pairs.getD (37 + extra.length) (Value.Nil, Value.Nil) =
      (Value.Symbol "n", Value.Int k) := by
  have e1 : 37 + extra.length = (loopIterPairs n).length + extra.length := rfl
  simp only [iterStore, e1]
  rw [List.getD_append_right _ _ _ _ (Nat.le_add_right _ _), Nat.add_sub_cancel_left,
      List.getD_append_right _ _ _ _ (Nat.le_refl _), Nat.sub_self]
  rfl

theorem iter_read_spine (n k : HostInt) (extra : List (Value × Value)) :
    (iterStore n k extra).pairs.getD (37 + extra.length + 1) (Value.Nil, Value.Nil) =
      (Value.Cons (37 + extra.length), Value.Cons 35) := by
  have e1 : 37 + extra.length + 1 =
      (loopIterPairs n).length + (extra.length + 1) := rfl
  simp only [iterStore, e1]
  rw [List.getD_append_right _ _ _ _ (Nat.le_add_right _ _), Nat.add_sub_cancel_left,
      List.getD_append_right _ _ _ _ (Nat.le_succ _)]
  have e2 : extra.length.succ - extra.length = 1 := by omega
  rw [e2]
  rfl

theorem iter_car_rib (n k : HostInt) (extra : List (Value × Value)) :
    Store.car (iterStore n k extra) (37 + extra.length) = Value.Symbol "n" := by
  simp only [Store.car, iter_read_rib]

theorem iter_cdr_rib (n k : HostInt) (extra : List (Value × Value)) :
    Store.cdr (iterStore n k extra) (37 + extra.length) = Value.Int k := by
  simp only [Store.cdr, iter_read_rib]

theorem iter_car_spine (n k : HostInt) (extra : List (Value × Value)) :
    Store.car (iterStore n k extra) (37 + extra.length + 1) =
      Value.Cons (37 + extra.length) := by
  simp only [Store.car, iter_read_spine]

theorem iter_cdr_spine (n k : HostInt) (extra : List (Value × Value)) :
    Store.cdr (iterStore n k extra) (37 + extra.length + 1) = Value.Cons 35 := by
  simp only [Store.cdr, iter_read_spine]

theorem lookupAux_found (st : Store) (c p rib : Nat) (name : String)
    (h1 : st.car p = Value.Cons rib) (h2 : st.car rib = Value.Symbol name) :
    lookupAux st (c + 1) (Value.Cons p) name = Except.ok rib := by
  simp [lookupAux, h1, h2]

theorem lookupAux_miss (st : Store) (c p rib : Nat) (s name : String)
    (h1 : st.car p = Value.Cons rib) (h2 : st.car rib = Value.Symbol s)
    (h3 : ¬ (s = name)) :
    lookupAux st (c + 1) (Value.Cons p) name = lookupAux st c (st.cdr p) name := by
  simp [lookupAux, h1, h2, h3]

theorem iter_lookup_n (n k : HostInt) (extra : List (Value × Value)) :
    lookup (iterStore n k extra) (Value.Cons (37 + extra.length + 1)) "n" =
      Except.ok (37 + extra.length) := by
  simp only [lookup, iter_len]
  rw [lookupAux_found _ (39 + extra.length) _ _ _
      (iter_car_spine n k extra) (iter_car_rib n k extra)]

theorem iter_lookup_loop (n k : HostInt) (extra : List (Value × Value)) :
    lookup (iterStore n k extra) (Value.Cons (37 + extra.length + 1)) "loop" =
      Except.ok 34 := by
  simp only [lookup, iter_len]
  rw [lookupAux_miss _ (39 + extra.length) _ _ _ _
      (iter_car_spine n k extra) (iter_car_rib n k extra) (by decide),
      iter_cdr_spine]
  have e2 : 39 + extra.length = 38 + extra.length + 1 := by omega
  rw [e2, lookupAux_found _ (38 + extra.length) _ _ _
      (iter_car_35 n k extra) (iter_car_34 n k extra)]

theorem iter_lookup_sub (n k : HostInt) (extra : List (Value × Value)) :
    lookup (iterStore n k extra) (Value.Cons (37 + extra.length + 1)) "-" =
      Except.ok 2 := by
  simp only [lookup, iter_len]
  rw [lookupAux_miss _ (39 + extra.length) _ _ _ _
      (iter_car_spine n k extra) (iter_car_rib n k extra) (by decide),
      iter_cdr_spine]
  have e2 : 39 + extra.length = 38 + extra.length + 1 := by omega
  rw [e2, lookupAux_miss _ (38 + extra.length) _ _ _ _
      (iter_car_35 n k extra) (iter_car_34 n k extra) (by decide),
      iter_cdr_35]
  have e3 : 38 + extra.length = 37 + extra.length + 1 := by omega
  rw [e3, lookupAux_found _ (37 + extra.length) _ _ _
      (iter_car_3 n k extra) (iter_car_2 n k extra)]

theorem iter_lookup_eq (n k : HostInt) (extra : List (Value × Value)) :
    lookup (iterStore n k extra) (Value.Cons (37 + extra.length + 1)) "eq?" =
      Except.ok 0 := by
  simp only [lookup, iter_len]
  rw [lookupAux_miss _ (39 + extra.length) _ _ _ _
      (iter_car_spine n k extra) (iter_car_rib n k extra) (by decide),
      iter_cdr_spine]
  have e2 : 39 + extra.length = 38 + extra.length + 1 := by omega
  rw [e2, lookupAux_miss _ (38 + extra.length) _ _ _ _
      (iter_car_35 n k extra) (iter_car_34 n k extra) (by decide),
      iter_cdr_35]
  have e3 : 38 + extra.length = 37 + extra.length + 1 := by omega
  rw [e3, lookupAux_miss _ (37 + extra.length) _ _ _ _
      (iter_car_3 n k extra) (iter_car_2 n k extra) (by decide),
      iter_cdr_3]
  have e4 : 37 + extra.length = 36 + extra.length + 1 := by omega
  rw [e4, lookupAux_found _ (36 + extra.length) _ _ _
      (iter_car_1 n k extra) (iter_car_0 n k extra)]

end Lisp

namespace Lisp

theorem lp_len (n : HostInt) : (loopIterPairs n).length = 37 := rfl

theorem bindParams_nil (c : Nat) (hc : c ≠ 0) (st : Store) (args : List Value)
    (i : Nat) (env : Value) :
    bindParams c st Value.Nil args i env = Except.ok (env, st, i) := by
  cases c with
  | zero => exact absurd rfl hc
  | succ c => simp [bindParams]

theorem iterBindParams (n k : HostInt) (extra : List (Value × Value)) :
    bindParams (37 + extra.length + 1) (Store.mk (loopIterPairs n ++ extra))
      (Value.Cons 18) [Value.Int k] 0 (Value.Cons 35) =
      Except.ok (Value.Cons (37 + extra.length + 1), iterStore n k extra, 1) := by
  simp only [bindParams, List.length_singleton, lpr_car_18]
  simp [envPush, Store.alloc, lp_len, List.append_assoc, iterStore, lpr_cdr_18]
  rw [bindParams_nil _ (by omega)]
  rfl

theorem eval_peel (f g : Nat) (h : f = g + 1) (st : Store) (e env : Value) :
    eval f st e env = evalStep (eval g) (apply g) st e env := by subst h; rfl

theorem apply_peel (f g : Nat) (h : f = g + 1) (st : Store) (fv : Value)
    (args : List Value) :
    apply f st fv args = applyStep (eval g) st fv args := by subst h; rfl

theorem iter_listify_body (n k : HostInt) (extra : List (Value × Value)) (c : Nat)
    (hc : 1 ≤ c) :
    listify (iterStore n k extra) c (Value.Cons 19) = Except.ok [Value.Cons 17] := by
  obtain ⟨d, rfl⟩ : ∃ d, c = d + 1 := ⟨c - 1, by omega⟩
  simp [listify, iter_cdr_19, iter_car_19]

theorem iter_listify_cond_args (n k : HostInt) (extra : List (Value × Value)) (c : Nat)
    (hc : 2 ≤ c) :
    listify (iterStore n k extra) c (Value.Cons 5) =
      Except.ok [Value.Symbol "n", Value.Int 0] := by
  obtain ⟨d, rfl⟩ : ∃ d, c = d + 2 := ⟨c - 2, by omega⟩
  simp [listify, iter_cdr_5, iter_car_5, iter_cdr_4, iter_car_4]

theorem iter_listify_else_args (n k : HostInt) (extra : List (Value × Value)) (c : Nat)
    (hc : 1 ≤ c) :
    listify (iterStore n k extra) c (Value.Cons 12) = Except.ok [Value.Cons 11] := by
  obtain ⟨d, rfl⟩ : ∃ d, c = d + 1 := ⟨c - 1, by omega⟩
  simp [listify, iter_cdr_12, iter_car_12]

theorem iter_listify_sub_args (n k : HostInt) (extra : List (Value × Value)) (c : Nat)
    (hc : 2 ≤ c) :
    listify (iterStore n k extra) c (Value.Cons 10) =
      Except.ok [Value.Symbol "n", Value.Int 1] := by
  obtain ⟨d, rfl⟩ : ∃ d, c = d + 2 := ⟨c - 2, by omega⟩
  simp [listify, iter_cdr_10, iter_car_10, iter_cdr_9, iter_car_9]

theorem iterBind (n k : HostInt) (extra : List (Value × Value)) (ev : EvalFn) :
    applyStep ev (Store.mk (loopIterPairs n ++ extra)) (Value.Lambda 36) [Value.Int k] =
      eval_block_body ev (iterStore n k extra) (Value.Cons 19)
        (Value.Cons (37 + extra.length + 1)) := by
  simp only [applyStep, lpr_car_36, lpr_cdr_36, parse_pair, lpr_car_20, lpr_cdr_20,
    List.length_append, lp_len]
  rw [iterBindParams]
  simp

theorem iterBody (n k : HostInt) (extra : List (Value × Value)) (ev : EvalFn) :
    eval_block_body ev (iterStore n k extra) (Value.Cons 19)
        (Value.Cons (37 + extra.length + 1)) =
      match ev (iterStore n k extra) (Value.Cons 17)
          (Value.Cons (37 + extra.length + 1)) with
      | .error e => .error e
      | .ok (v, _, st2) => .ok (v, st2) := by
  rw [eval_block_body, iter_listify_body n k extra _ (by rw [iter_len]; omega)]
  cases h : ev (iterStore n k extra) (Value.Cons 17)
      (Value.Cons (37 + extra.length + 1)) with
  | error e => simp [evalList, h]
  | ok r =>
      obtain ⟨v, env2, st2⟩ := r
      simp [evalList, h]

theorem iterIf (n k : HostInt) (extra : List (Value × Value)) (ev : EvalFn)
    (ap : ApplyFn) :
    evalStep ev ap (iterStore n k extra) (Value.Cons 17)
        (Value.Cons (37 + extra.length + 1)) =
      match ev (iterStore n k extra) (Value.Cons 6)
          (Value.Cons (37 + extra.length + 1)) with
      | .error e => .error e
      | .ok (c, env1, st1) =>
          ev st1 (if c.to_bool then Value.Cons 8 else Value.Cons 13) env1 := by
  cases h : ev (iterStore n k extra) (Value.Cons 6)
      (Value.Cons (37 + extra.length + 1)) with
  | error e =>
      simp [evalStep, iter_car_17, iter_cdr_17, parse_pair, iter_car_16, iter_cdr_16,
        iter_car_15, iter_cdr_15, iter_car_14, iter_cdr_14, Value.null, h]
  | ok r =>
      obtain ⟨c, env1, st1⟩ := r
      simp [evalStep, iter_car_17, iter_cdr_17, parse_pair, iter_car_16, iter_cdr_16,
        iter_car_15, iter_cdr_15, iter_car_14, iter_cdr_14, Value.null, h]

theorem iterCond (n k : HostInt) (extra : List (Value × Value)) (G : Nat) :
    eval (G + 2) (iterStore n k extra) (Value.Cons 6)
        (Value.Cons (37 + extra.length + 1)) =
      Except.ok (Value.Bool (decide (k = 0)), Value.Cons (37 + extra.length + 1),
        iterStore n k extra) := by
  rw [eval_peel _ (G + 1) rfl]
  simp only [evalStep, iter_car_6, iter_cdr_6, String.reduceEq, reduceIte]
  rw [applicationCase, iter_car_6, eval_peel (G + 1) G rfl]
  simp only [evalStep, envGet, iter_lookup_eq, iter_cdr_0]
  simp only [map_eval]
  rw [iter_cdr_6, iter_listify_cond_args n k extra _ (by rw [iter_len]; omega)]
  simp only [evalArgs, eval_peel (G + 1) G rfl, evalStep, envGet, iter_lookup_n,
    iter_cdr_rib]
  rw [apply_peel (G + 1) G rfl]
  simp [applyStep, builtinApply]

theorem iterThen (n k : HostInt) (extra : List (Value × Value)) (G : Nat) :
    eval (G + 1) (iterStore n k extra) (Value.Cons 8)
        (Value.Cons (37 + extra.length + 1)) =
      Except.ok (Value.Symbol "done", Value.Cons (37 + extra.length + 1),
        iterStore n k extra) := by
  rw [eval_peel _ G rfl]
  simp [evalStep, iter_car_8, iter_cdr_8, parse_pair, iter_car_7, iter_cdr_7, Value.null]

theorem iterSubExpr (n k : HostInt) (extra : List (Value × Value)) (G : Nat) :
    eval (G + 2) (iterStore n k extra) (Value.Cons 11)
        (Value.Cons (37 + extra.length + 1)) =
      Except.ok (Value.Int (k - 1), Value.Cons (37 + extra.length + 1),
        iterStore n k extra) := by
  rw [eval_peel _ (G + 1) rfl]
  simp only [evalStep, iter_car_11, iter_cdr_11, String.reduceEq, reduceIte]
  rw [applicationCase, iter_car_11, eval_peel (G + 1) G rfl]
  simp only [evalStep, envGet, iter_lookup_sub, iter_cdr_2]
  simp only [map_eval]
  rw [iter_cdr_11, iter_listify_sub_args n k extra _ (by rw [iter_len]; omega)]
  simp only [evalArgs, eval_peel (G + 1) G rfl, evalStep, envGet, iter_lookup_n,
    iter_cdr_rib]
  rw [apply_peel (G + 1) G rfl]
  simp [applyStep, builtinApply]

theorem iterElse (n k : HostInt) (extra : List (Value × Value)) (G : Nat) :
    eval (G + 3) (iterStore n k extra) (Value.Cons 13)
        (Value.Cons (37 + extra.length + 1)) =
      match apply (G + 2) (iterStore n k extra) (Value.Lambda 36)
          [Value.Int (k - 1)] with
      | .error e => .error e
      | .ok (v, st2) => .ok (v, Value.Cons (37 + extra.length + 1), st2) := by
  rw [eval_peel _ (G + 2) rfl]
  simp only [evalStep, iter_car_13, iter_cdr_13, String.reduceEq, reduceIte]
  rw [applicationCase, iter_car_13, eval_peel (G + 2) (G + 1) rfl]
  simp only [evalStep, envGet, iter_lookup_loop, iter_cdr_34]
  simp only [map_eval]
  rw [iter_cdr_13, iter_listify_else_args n k extra _ (by rw [iter_len]; omega)]
  simp only [evalArgs, iterSubExpr]
  cases h : apply (G + 2) (iterStore n k extra) (Value.Lambda 36)
      [Value.Int (k - 1)] with
  | error e => simp [h]
  | ok r => obtain ⟨v, st2⟩ := r; simp [h]

theorem iterStepOk0 (n : HostInt) (extra : List (Value × Value)) (F : Nat) :
    apply (F + 4) (Store.mk (loopIterPairs n ++ extra)) (Value.Lambda 36)
        [Value.Int 0] =
      Except.ok (Value.Symbol "done", iterStore n 0 extra) := by
  rw [apply_peel _ (F + 3) rfl, iterBind, iterBody, eval_peel (F + 3) (F + 2) rfl,
      iterIf, iterCond n 0 extra F]
  simp [Value.to_bool, iterThen n 0 extra (F + 1)]

theorem iterStepNZ (n k : HostInt) (hk : ¬ (k = 0)) (extra : List (Value × Value))
    (F : Nat) :
    apply (F + 5) (Store.mk (loopIterPairs n ++ extra)) (Value.Lambda 36)
        [Value.Int k] =
      apply (F + 2) (iterStore n k extra) (Value.Lambda 36) [Value.Int (k - 1)] := by
  rw [apply_peel _ (F + 4) rfl, iterBind, iterBody, eval_peel (F + 4) (F + 3) rfl,
      iterIf, iterCond n k extra (F + 1)]
  simp only [hk, decide_False, Value.to_bool, Bool.false_eq_true, if_false]
  rw [iterElse n k extra F]
  cases h : apply (F + 2) (iterStore n k extra) (Value.Lambda 36)
      [Value.Int (k - 1)] with
  | error e => simp [h]
  | ok r => obtain ⟨v, st2⟩ := r; simp [h]

theorem iterCondFail (n k : HostInt) (extra : List (Value × Value)) :
    eval 1 (iterStore n k extra) (Value.Cons 6)
        (Value.Cons (37 + extra.length + 1)) = Except.error VmErr.noFuel := by
  rw [eval_peel 1 0 rfl]
  simp only [evalStep, iter_car_6, iter_cdr_6, String.reduceEq, reduceIte]
  rw [applicationCase, iter_car_6]
  simp [eval_zero]

theorem iterSubFail (n k : HostInt) (extra : List (Value × Value)) :
    eval 1 (iterStore n k extra) (Value.Cons 11)
        (Value.Cons (37 + extra.length + 1)) = Except.error VmErr.noFuel := by
  rw [eval_peel 1 0 rfl]
  simp only [evalStep, iter_car_11, iter_cdr_11, String.reduceEq, reduceIte]
  rw [applicationCase, iter_car_11]
  simp [eval_zero]

theorem iterElseFail (n k : HostInt) (extra : List (Value × Value)) :
    eval 2 (iterStore n k extra) (Value.Cons 13)
        (Value.Cons (37 + extra.length + 1)) = Except.error VmErr.noFuel := by
  rw [eval_peel 2 1 rfl]
  simp only [evalStep, iter_car_13, iter_cdr_13, String.reduceEq, reduceIte]
  rw [applicationCase, iter_car_13, eval_peel 1 0 rfl]
  simp only [evalStep, envGet, iter_lookup_loop, iter_cdr_34]
  simp only [map_eval]
  rw [iter_cdr_13, iter_listify_else_args n k extra _ (by rw [iter_len]; omega)]
  simp only [evalArgs, iterSubFail]

theorem iterFail1 (n k : HostInt) (extra : List (Value × Value)) :
    apply 1 (Store.mk (loopIterPairs n ++ extra)) (Value.Lambda 36) [Value.Int k] =
      Except.error VmErr.noFuel := by
  rw [apply_peel 1 0 rfl, iterBind, iterBody]
  simp [eval_zero]

theorem iterFail2 (n k : HostInt) (extra : List (Value × Value)) :
    apply 2 (Store.mk (loopIterPairs n ++ extra)) (Value.Lambda 36) [Value.Int k] =
      Except.error VmErr.noFuel := by
  rw [apply_peel 2 1 rfl, iterBind, iterBody, eval_peel 1 0 rfl, iterIf]
  simp [eval_zero]

theorem iterFail3 (n k : HostInt) (extra : List (Value × Value)) :
    apply 3 (Store.mk (loopIterPairs n ++ extra)) (Value.Lambda 36) [Value.Int k] =
      Except.error VmErr.noFuel := by
  rw [apply_peel 3 2 rfl, iterBind, iterBody, eval_peel 2 1 rfl, iterIf, iterCondFail]

theorem iterFail4 (n k : HostInt) (hk : ¬ (k = 0)) (extra : List (Value × Value)) :
    apply 4 (Store.mk (loopIterPairs n ++ extra)) (Value.Lambda 36) [Value.Int k] =
      Except.error VmErr.noFuel := by
  rw [apply_peel 4 3 rfl, iterBind, iterBody, eval_peel 3 2 rfl, iterIf,
      iterCond n k extra 0]
  simp only [hk, decide_False, Value.to_bool, Bool.false_eq_true, if_false]
  rw [iterElseFail]

set_option maxRecDepth 4000 in
theorem runLoopBridge (n : HostInt) (F : Nat) :
    runLoop (F + 3) n =
      match apply (F + 1) (Store.mk (loopIterPairs n)) (Value.Lambda 36)
          [Value.Int n] with
      | .error e => .error e
      | .ok (v, _) => .ok v := by
  cases happ : apply (F + 1) (Store.mk (loopIterPairs n)) (Value.Lambda 36)
      [Value.Int n] with
  | error e =>
      simp only [loopIterPairs] at happ
      simp [runLoop, loopProgram, mkList, envPush, Store.alloc, symb,
        eval_peel (F + 3) (F + 2) rfl, eval_peel (F + 2) (F + 1) rfl,
        eval_peel (F + 1) F rfl,
        evalStep, eval_block_body, listify, evalList, evalArgs, map_eval,
        applicationCase, envGet, envSet, lookup, lookupAux, parse_pair,
        Store.car, Store.cdr, Store.set_cdr, Value.null, Value.to_bool, happ]
  | ok r =>
      obtain ⟨v, st2⟩ := r
      simp only [loopIterPairs] at happ
      simp [runLoop, loopProgram, mkList, envPush, Store.alloc, symb,
        eval_peel (F + 3) (F + 2) rfl, eval_peel (F + 2) (F + 1) rfl,
        eval_peel (F + 1) F rfl,
        evalStep, eval_block_body, listify, evalList, evalArgs, map_eval,
        applicationCase, envGet, envSet, lookup, lookupAux, parse_pair,
        Store.car, Store.cdr, Store.set_cdr, Value.null, Value.to_bool, happ]

theorem loopIterOk (kN : Nat) :
    ∀ (n : HostInt) (extra : List (Value × Value)),
    ∃ st2, apply (3 * kN + 4) (Store.mk (loopIterPairs n ++ extra)) (Value.Lambda 36)
      [Value.Int (Int.ofNat kN)] = Except.ok (Value.Symbol "done", st2) := by
  induction kN with
  | zero =>
      intro n extra
      exact ⟨iterStore n 0 extra, iterStepOk0 n extra 0⟩
  | succ k ih =>
      intro n extra
      obtain ⟨st2, hok⟩ := ih n (extra ++
        [(Value.Symbol "n", Value.Int (Int.ofNat (k + 1))),
         (Value.Cons (37 + extra.length), Value.Cons 35)])
      refine ⟨st2, ?_⟩
      have hs := iterStepNZ n (Int.ofNat (k + 1)) (by intro h; exact Nat.succ_ne_zero k (Int.ofNat.inj h)) extra (3 * k + 2)
      have e1 : (Int.ofNat (k + 1) : HostInt) - 1 = Int.ofNat k := by simp [Int.ofNat_eq_coe]
      rw [e1] at hs
      have e2 : 3 * (k + 1) + 4 = 3 * k + 2 + 5 := by ring
      rw [e2, hs]
      exact hok

theorem loopIterFail (kN : Nat) :
    ∀ (F : Nat) (n : HostInt) (extra : List (Value × Value)), F ≤ 3 * kN + 3 →
    apply F (Store.mk (loopIterPairs n ++ extra)) (Value.Lambda 36)
      [Value.Int (Int.ofNat kN)] = Except.error VmErr.noFuel := by
  induction kN with
  | zero =>
      intro F n extra hF
      interval_cases F
      · rfl
      · exact iterFail1 n _ extra
      · exact iterFail2 n _ extra
      · exact iterFail3 n _ extra
  | succ k ih =>
      intro F n extra hF
      by_cases h4 : F ≤ 4
      · interval_cases F
        · rfl
        · exact iterFail1 n _ extra
        · exact iterFail2 n _ extra
        · exact iterFail3 n _ extra
        · exact iterFail4 n _ (by intro h; exact Nat.succ_ne_zero k (Int.ofNat.inj h)) extra
      · obtain ⟨G, rfl⟩ : ∃ G, F = G + 5 := ⟨F - 5, by omega⟩
        have hs := iterStepNZ n (Int.ofNat (k + 1)) (by intro h; exact Nat.succ_ne_zero k (Int.ofNat.inj h)) extra G
        have e1 : (Int.ofNat (k + 1) : HostInt) - 1 = Int.ofNat k := by simp [Int.ofNat_eq_coe]
        rw [e1] at hs
        rw [hs]
        exact ih (G + 2) n (extra ++
          [(Value.Symbol "n", Value.Int (Int.ofNat (k + 1))),
           (Value.Cons (37 + extra.length), Value.Cons 35)]) (by omega)

theorem runLoopFail0 (n : HostInt) : runLoop 0 n = Except.error VmErr.noFuel := rfl

set_option maxRecDepth 4000 in
theorem runLoopFail1 (n : HostInt) : runLoop 1 n = Except.error VmErr.noFuel := by
  simp [runLoop, loopProgram, mkList, envPush, Store.alloc, symb, eval_peel 1 0 rfl,
    evalStep, eval_block_body, listify, evalList, Store.car, Store.cdr, eval_zero,
    parse_pair]

set_option maxRecDepth 4000 in
theorem runLoopFail2 (n : HostInt) : runLoop 2 n = Except.error VmErr.noFuel := by
  simp [runLoop, loopProgram, mkList, envPush, Store.alloc, symb, eval_peel 2 1 rfl,
    eval_peel 1 0 rfl, evalStep, eval_block_body, listify, evalList, Store.car,
    Store.cdr, eval_zero, parse_pair]

theorem loopNeedsLinearFuel (N F : Nat) (hF : F ≤ 3 * N + 5) :
    runLoop F (Int.ofNat N) = Except.error VmErr.noFuel := by
  by_cases h3 : F ≤ 2
  · interval_cases F
    · exact runLoopFail0 _
    · exact runLoopFail1 _
    · exact runLoopFail2 _
  · obtain ⟨G, rfl⟩ : ∃ G, F = G + 3 := ⟨F - 3, by omega⟩
    rw [runLoopBridge]
    have hfail := loopIterFail N (G + 1) (Int.ofNat N) [] (by omega)
    rw [show Store.mk (loopIterPairs (Int.ofNat N) ++ []) =
        Store.mk (loopIterPairs (Int.ofNat N)) from by simp] at hfail
    rw [hfail]

theorem loopSucceedsAtLinearFuel (N : Nat) :
    runLoop (3 * N + 6) (Int.ofNat N) = Except.ok (Value.Symbol "done") := by
  have e2 : 3 * N + 6 = 3 * N + 3 + 3 := by ring
  rw [e2, runLoopBridge]
  obtain ⟨st2, hok⟩ := loopIterOk N (Int.ofNat N) []
  rw [show Store.mk (loopIterPairs (Int.ofNat N) ++ []) =
      Store.mk (loopIterPairs (Int.ofNat N)) from by simp] at hok
  rw [show (3 : Nat) * N + 3 + 1 = 3 * N + 4 from by ring, hok]

end Lisp


set_option maxRecDepth 40000 in
/-- C5 (code bug): evaluating ((lambda (a b) a) 1) does not produce the
recoverable error "apply: not enough arguments" the claim describes: the
parameter-binding loop checks i > len(args) before each binding instead of
i >= len(args), so at i = len(args) it indexes args out of bounds and the
process panics; the not-enough-arguments return after the check is dead
code.  The model yields the fatal (panic) outcome, distinct from every
recoverable error. -/
theorem arity_underflow_panics :
    Lisp.runProg 10 Lisp.arityProgram = .error (.fatal "index out of bounds") ∧
    Lisp.runProg 10 Lisp.arityProgram ≠ .error (.err "apply: not enough arguments") := by
  exact ⟨by decide, by decide⟩

set_option maxRecDepth 40000 in
/-- C6 counterexample: ((lambda args args) 1 2 3) does not evaluate to the
list (1 2 3); it evaluates to the recoverable error "apply: too many
arguments", because the binding loop of apply consumes only Cons parameter
cells and treats the bare symbol args as the end of the parameter list,
leaving all three arguments surplus.  There is no rest-parameter support
in apply. -/
theorem rest_params_not_supported_counterexample :
    Lisp.runProg 10 Lisp.restProgram = .error (.err "apply: too many arguments") := by
  decide

/-- C6 (amended): apply implements no rest parameters.  The binding loop
consumes only Cons parameter cells, so a lambda whose parameter position is
a bare symbol binds nothing, and applying it to one or more arguments
yields the recoverable error "apply: too many arguments" (instead of
collecting the surplus into a list bound to the rest name). -/
theorem bare_symbol_params_reject_surplus_args :
    ∀ (f : Nat) (st : Lisp.Store) (pr pb : Nat) (s : String) (args : List Lisp.Value),
      st.car pr = .Cons pb →
      st.car pb = .Symbol s →
      args ≠ [] →
      Lisp.apply (f + 1) st (.Lambda pr) args =
        .error (.err "apply: too many arguments") := by
  intro f st pr pb s args hpr hpb hargs
  rw [Lisp.apply_succ, Lisp.applyStep, hpr]
  simp only [Lisp.parse_pair]
  rw [hpb]
  simp only [Lisp.bindParams]
  have : 0 < args.length := List.length_pos.mpr hargs
  simp [this]

set_option maxRecDepth 40000 in
/-- Witness for the amended C6: a concrete two-cell lambda with the bare
symbol parameter list, applied to one argument. -/
theorem bare_symbol_params_reject_surplus_args_witness :
    Lisp.apply 5 ⟨[(.Symbol "args", .Nil), (.Cons 0, .Nil)]⟩ (.Lambda 1) [.Int 1] =
      .error (.err "apply: too many arguments") :=
  bare_symbol_params_reject_surplus_args 4 ⟨[(.Symbol "args", .Nil), (.Cons 0, .Nil)]⟩
    1 0 "args" [.Int 1] (by decide) (by decide) (by decide)

set_option maxRecDepth 40000 in
/-- C8 counterexample: evaluating a definition form and a successful
assignment form yields Nil, the very value that (quote ()) produces, not a
distinct Unspecified value; the Value type of the source has no
Unspecified variant, so define and set! are observably indistinguishable
from the empty list in result position. -/
theorem define_set_yield_nil_counterexample :
    Lisp.runProg 5 Lisp.defineProgram = .ok .Nil ∧
    Lisp.runProg 8 Lisp.defineSetProgram = .ok .Nil ∧
    Lisp.runProg 5 Lisp.quoteNilProgram = .ok .Nil := by
  exact ⟨by decide, by decide, by decide⟩

/-- C8 (amended): evaluating (define x e) fully evaluates e, pushes the
new binding onto the environment produced by that evaluation, and yields
Nil; evaluating a successful (set! x e) fully evaluates e, mutates the
first existing binding of x in the chain in place, and yields Nil with the
environment value unchanged. -/
theorem define_and_set_yield_nil :
    (∀ (f : Nat) (st : Lisp.Store) (p q q2 : Nat) (s : String)
        (vexpr env v env1 : Lisp.Value) (st1 : Lisp.Store),
       st.car p = .Symbol "define" →
       st.cdr p = .Cons q →
       st.car q = .Symbol s →
       st.cdr q = .Cons q2 →
       st.car q2 = vexpr →
       st.cdr q2 = .Nil →
       Lisp.eval f st vexpr env = .ok (v, env1, st1) →
       Lisp.eval (f + 1) st (.Cons p) env =
         .ok (.Nil, (Lisp.envPush st1 env1 s v).1, (Lisp.envPush st1 env1 s v).2)) ∧
    (∀ (f : Nat) (st : Lisp.Store) (p q q2 r : Nat) (s : String)
        (vexpr env v env1 : Lisp.Value) (st1 : Lisp.Store),
       st.car p = .Symbol "set!" →
       st.cdr p = .Cons q →
       st.car q = .Symbol s →
       st.cdr q = .Cons q2 →
       st.car q2 = vexpr →
       st.cdr q2 = .Nil →
       Lisp.eval f st vexpr env = .ok (v, env1, st1) →
       Lisp.lookup st1 env s = .ok r →
       Lisp.eval (f + 1) st (.Cons p) env = .ok (.Nil, env, st1.set_cdr r v)) := by
  constructor
  · intro f st p q q2 s vexpr env v env1 st1 hp hpq hqs hqq2 hq2v hq2n heval
    rw [Lisp.eval_succ, Lisp.evalStep, hp]
    simp only [Lisp.parse_pair, hpq, hqs, hqq2, hq2v, hq2n]
    simp only [String.reduceEq, if_false, if_true, reduceIte]
    rw [heval]
  · intro f st p q q2 r s vexpr env v env1 st1 hp hpq hqs hqq2 hq2v hq2n heval hlook
    rw [Lisp.eval_succ, Lisp.evalStep, hp]
    simp only [Lisp.parse_pair, hpq, hqs, hqq2, hq2v, hq2n]
    simp only [String.reduceEq, if_false, if_true, reduceIte]
    rw [heval]
    simp only [Lisp.Value.null, Bool.not_true, Bool.not_false, if_false, reduceIte]
    rw [Lisp.envSet, hlook]
    simp

set_option maxRecDepth 40000 in
/-- Witness for the amended C8: concrete (define x 1) and (set! y 2)
evaluations, each yielding Nil with the stated binding effect. -/
theorem define_and_set_yield_nil_witness :
    Lisp.eval 2 ⟨[(.Int 1, .Nil), (.Symbol "x", .Cons 0), (.Symbol "define", .Cons 1)]⟩
        (.Cons 2) .Nil =
      .ok (.Nil,
        (Lisp.envPush ⟨[(.Int 1, .Nil), (.Symbol "x", .Cons 0),
          (.Symbol "define", .Cons 1)]⟩ .Nil "x" (.Int 1)).1,
        (Lisp.envPush ⟨[(.Int 1, .Nil), (.Symbol "x", .Cons 0),
          (.Symbol "define", .Cons 1)]⟩ .Nil "x" (.Int 1)).2) ∧
    Lisp.eval 2 ⟨[(.Symbol "y", .Int 1), (.Cons 0, .Nil), (.Int 2, .Nil),
        (.Symbol "y", .Cons 2), (.Symbol "set!", .Cons 3)]⟩ (.Cons 4) (.Cons 1) =
      .ok (.Nil, .Cons 1,
        Lisp.Store.set_cdr ⟨[(.Symbol "y", .Int 1), (.Cons 0, .Nil), (.Int 2, .Nil),
          (.Symbol "y", .Cons 2), (.Symbol "set!", .Cons 3)]⟩ 0 (.Int 2)) :=
  ⟨define_and_set_yield_nil.1 1
      ⟨[(.Int 1, .Nil), (.Symbol "x", .Cons 0), (.Symbol "define", .Cons 1)]⟩
      2 1 0 "x" (.Int 1) .Nil (.Int 1) .Nil _
      (by decide) (by decide) (by decide) (by decide) (by decide) (by decide) (by decide),
   define_and_set_yield_nil.2 1
      ⟨[(.Symbol "y", .Int 1), (.Cons 0, .Nil), (.Int 2, .Nil),
        (.Symbol "y", .Cons 2), (.Symbol "set!", .Cons 3)]⟩
      4 3 2 0 "y" (.Int 2) (.Cons 1) (.Int 2) (.Cons 1) _
      (by decide) (by decide) (by decide) (by decide) (by decide) (by decide)
      (by decide) (by decide)⟩

/-- C9: when the operator position of an application form is literally one
of the six symbols lambda, quote, if, begin, define, set!, eval dispatches
on that name alone: the stated special-form result holds for every
environment, including any environment that binds the name, so a user
binding can never shadow a special form (parts 1 to 6).  The environment
is consulted for the operator only when the head symbol is none of the
six: a non-special head resolves through the innermost matching binding
and is applied, here failing with "apply: not a function" on a non-callable
binding (part 7). -/
theorem special_forms_bypass_environment :
    (∀ (f : Nat) (st : Lisp.Store) (p : Nat) (env : Lisp.Value),
       st.car p = .Symbol "lambda" →
       Lisp.eval (f + 1) st (.Cons p) env =
         .ok (.Lambda st.pairs.length, env, ⟨st.pairs ++ [(st.cdr p, env)]⟩)) ∧
    (∀ (f : Nat) (st : Lisp.Store) (p q : Nat) (env : Lisp.Value),
       st.car p = .Symbol "quote" →
       st.cdr p = .Cons q →
       st.cdr q = .Nil →
       Lisp.eval (f + 1) st (.Cons p) env = .ok (st.car q, env, st)) ∧
    (∀ (f : Nat) (st : Lisp.Store) (p c1 c2 c3 : Nat) (env : Lisp.Value),
       st.car p = .Symbol "if" →
       st.cdr p = .Cons c1 →
       st.car c1 = .Bool false →
       st.cdr c1 = .Cons c2 →
       st.cdr c2 = .Cons c3 →
       st.cdr c3 = .Nil →
       Lisp.eval (f + 2) st (.Cons p) env = Lisp.eval (f + 1) st (st.car c3) env) ∧
    (∀ (f : Nat) (st : Lisp.Store) (p b : Nat) (n : Lisp.HostInt) (env : Lisp.Value),
       st.car p = .Symbol "begin" →
       st.cdr p = .Cons b →
       st.car b = .Int n →
       st.cdr b = .Nil →
       Lisp.eval (f + 2) st (.Cons p) env = .ok (.Int n, env, st)) ∧
    (∀ (f : Nat) (st : Lisp.Store) (p q q2 : Nat) (s : String) (n : Lisp.HostInt)
        (env : Lisp.Value),
       st.car p = .Symbol "define" →
       st.cdr p = .Cons q →
       st.car q = .Symbol s →
       st.cdr q = .Cons q2 →
       st.car q2 = .Int n →
       st.cdr q2 = .Nil →
       Lisp.eval (f + 2) st (.Cons p) env =
         .ok (.Nil, (Lisp.envPush st env s (.Int n)).1, (Lisp.envPush st env s (.Int n)).2)) ∧
    (∀ (f : Nat) (st : Lisp.Store) (p q q2 r : Nat) (s : String) (n : Lisp.HostInt)
        (env : Lisp.Value),
       st.car p = .Symbol "set!" →
       st.cdr p = .Cons q →
       st.car q = .Symbol s →
       st.cdr q = .Cons q2 →
       st.car q2 = .Int n →
       st.cdr q2 = .Nil →
       Lisp.lookup st env s = .ok r →
       Lisp.eval (f + 2) st (.Cons p) env = .ok (.Nil, env, st.set_cdr r (.Int n))) ∧
    (∀ (f : Nat) (st : Lisp.Store) (p sp rib : Nat) (s2 : String) (env : Lisp.Value),
       st.car p = .Symbol s2 →
       s2 ≠ "lambda" → s2 ≠ "quote" → s2 ≠ "if" →
       s2 ≠ "begin" → s2 ≠ "define" → s2 ≠ "set!" →
       st.cdr p = .Nil →
       env = .Cons sp →
       st.car sp = .Cons rib →
       st.car rib = .Symbol s2 →
       st.cdr rib = .Int 7 →
       Lisp.eval (f + 2) st (.Cons p) env = .error (.err "apply: not a function")) := by
  refine ⟨?_, ?_, ?_, ?_, ?_, ?_, ?_⟩
  · intro f st p env hp
    rw [Lisp.eval_succ, Lisp.evalStep, hp]
    simp [Lisp.Store.alloc]
  · intro f st p q env hp hpq hqn
    rw [Lisp.eval_succ, Lisp.evalStep, hp]
    simp [Lisp.parse_pair, hpq, hqn, Lisp.Value.null]
  · intro f st p c1 c2 c3 env hp hpq hc1 hc12 hc23 hc3n
    rw [Lisp.eval_succ, Lisp.evalStep, hp]
    simp only [Lisp.parse_pair, hpq, hc12, hc23, hc3n]
    simp only [String.reduceEq, reduceIte, Lisp.Value.null, Bool.not_false]
    rw [hc1]
    conv_lhs => rw [Lisp.eval_succ]
    simp [Lisp.evalStep, Lisp.Value.to_bool]
  · intro f st p b n env hp hpb hbn hbnil
    rw [Lisp.eval_succ, Lisp.evalStep, hp]
    simp only [String.reduceEq, reduceIte]
    rw [Lisp.eval_block_body, hpb]
    simp only [Lisp.listify, hbnil, hbn]
    simp only [Lisp.evalList, Lisp.eval_succ, Lisp.evalStep]
  · intro f st p q q2 s n env hp hpq hqs hqq2 hq2v hq2n
    rw [Lisp.eval_succ, Lisp.evalStep, hp]
    simp only [Lisp.parse_pair, hpq, hqs, hqq2, hq2v, hq2n]
    simp only [String.reduceEq, reduceIte]
    conv_lhs => rw [Lisp.eval_succ]
    simp [Lisp.evalStep]
  · intro f st p q q2 r s n env hp hpq hqs hqq2 hq2v hq2n hlook
    rw [Lisp.eval_succ, Lisp.evalStep, hp]
    simp only [Lisp.parse_pair, hpq, hqs, hqq2, hq2v, hq2n]
    simp only [String.reduceEq, reduceIte]
    conv_lhs => rw [Lisp.eval_succ]
    simp only [Lisp.evalStep]
    simp only [Lisp.Value.null, Bool.not_false, reduceIte]
    rw [Lisp.envSet, hlook]
    simp
  · intro f st p sp rib s2 env hp h1 h2 h3 h4 h5 h6 hnil henv hsp hrib hribv
    subst henv
    rw [Lisp.eval_succ, Lisp.evalStep, hp]
    simp only [if_neg h1, if_neg h2, if_neg h3, if_neg h4, if_neg h5, if_neg h6]
    rw [Lisp.applicationCase, hp]
    conv_lhs => rw [Lisp.eval_succ]
    simp only [Lisp.evalStep]
    rw [Lisp.envGet, Lisp.lookup, Lisp.lookupAux, hsp]
    simp [hrib, hribv, hnil, Lisp.map_eval, Lisp.listify, Lisp.evalArgs,
      Lisp.apply_succ, Lisp.applyStep]

set_option maxRecDepth 40000 in
/-- Witness for C9: concrete instances of all seven parts, each evaluated
in an environment whose innermost rib binds the special-form name (or, in
the last part, binds the non-special head to a non-function). -/
theorem special_forms_bypass_environment_witness :
    (Lisp.eval 1 ⟨[(.Symbol "lambda", .Int 9), (.Cons 0, .Nil), (.Symbol "lambda", .Nil)]⟩
        (.Cons 2) (.Cons 1) =
      .ok (.Lambda 3, .Cons 1,
        ⟨[(.Symbol "lambda", .Int 9), (.Cons 0, .Nil), (.Symbol "lambda", .Nil),
          (.Nil, .Cons 1)]⟩)) ∧
    (Lisp.eval 1 ⟨[(.Symbol "quote", .Int 9), (.Cons 0, .Nil), (.Int 5, .Nil),
        (.Symbol "quote", .Cons 2)]⟩ (.Cons 3) (.Cons 1) =
      .ok (.Int 5, .Cons 1,
        ⟨[(.Symbol "quote", .Int 9), (.Cons 0, .Nil), (.Int 5, .Nil),
          (.Symbol "quote", .Cons 2)]⟩)) ∧
    (Lisp.eval 2 ⟨[(.Symbol "if", .Int 9), (.Cons 0, .Nil), (.Int 3, .Nil),
        (.Int 2, .Cons 2), (.Bool false, .Cons 3), (.Symbol "if", .Cons 4)]⟩
        (.Cons 5) (.Cons 1) =
      Lisp.eval 1 ⟨[(.Symbol "if", .Int 9), (.Cons 0, .Nil), (.Int 3, .Nil),
        (.Int 2, .Cons 2), (.Bool false, .Cons 3), (.Symbol "if", .Cons 4)]⟩
        (.Int 3) (.Cons 1)) ∧
    (Lisp.eval 2 ⟨[(.Symbol "begin", .Int 9), (.Cons 0, .Nil), (.Int 4, .Nil),
        (.Symbol "begin", .Cons 2)]⟩ (.Cons 3) (.Cons 1) =
      .ok (.Int 4, .Cons 1,
        ⟨[(.Symbol "begin", .Int 9), (.Cons 0, .Nil), (.Int 4, .Nil),
          (.Symbol "begin", .Cons 2)]⟩)) ∧
    (Lisp.eval 2 ⟨[(.Symbol "define", .Int 9), (.Cons 0, .Nil), (.Int 1, .Nil),
        (.Symbol "z", .Cons 2), (.Symbol "define", .Cons 3)]⟩ (.Cons 4) (.Cons 1) =
      .ok (.Nil, .Cons 6,
        ⟨[(.Symbol "define", .Int 9), (.Cons 0, .Nil), (.Int 1, .Nil),
          (.Symbol "z", .Cons 2), (.Symbol "define", .Cons 3),
          (.Symbol "z", .Int 1), (.Cons 5, .Cons 1)]⟩)) ∧
    (Lisp.eval 2 ⟨[(.Symbol "z", .Int 0), (.Cons 0, .Nil), (.Symbol "set!", .Int 9),
        (.Cons 2, .Cons 1), (.Int 2, .Nil), (.Symbol "z", .Cons 4),
        (.Symbol "set!", .Cons 5)]⟩ (.Cons 6) (.Cons 3) =
      .ok (.Nil, .Cons 3,
        ⟨[(.Symbol "z", .Int 2), (.Cons 0, .Nil), (.Symbol "set!", .Int 9),
          (.Cons 2, .Cons 1), (.Int 2, .Nil), (.Symbol "z", .Cons 4),
          (.Symbol "set!", .Cons 5)]⟩)) ∧
    (Lisp.eval 2 ⟨[(.Symbol "foo", .Int 7), (.Cons 0, .Nil), (.Symbol "foo", .Nil)]⟩
        (.Cons 2) (.Cons 1) = .error (.err "apply: not a function")) :=
  ⟨special_forms_bypass_environment.1 0 _ 2 _ (by decide),
   special_forms_bypass_environment.2.1 0 _ 3 2 _ (by decide) (by decide) (by decide),
   special_forms_bypass_environment.2.2.1 0 _ 5 4 3 2 _
     (by decide) (by decide) (by decide) (by decide) (by decide) (by decide),
   special_forms_bypass_environment.2.2.2.1 0 _ 3 2 4 _
     (by decide) (by decide) (by decide) (by decide),
   special_forms_bypass_environment.2.2.2.2.1 0 _ 4 3 2 "z" 1 _
     (by decide) (by decide) (by decide) (by decide) (by decide) (by decide),
   special_forms_bypass_environment.2.2.2.2.2.1 0 _ 6 5 4 0 "z" 2 _
     (by decide) (by decide) (by decide) (by decide) (by decide) (by decide) (by decide),
   special_forms_bypass_environment.2.2.2.2.2.2 0 _ 2 1 0 "foo" _
     (by decide) (by decide) (by decide) (by decide) (by decide) (by decide) (by decide)
     (by decide) (rfl) (by decide) (by decide) (by decide)⟩

/-- C10: a (begin ...) form hands the enclosing environment back unchanged
(part 1, for every store, body and environment); definitions inside the
block extend only the block-internal chain and are gone afterwards, while
a set! inside the block mutates the existing rib cell in the store and so
stays visible through the enclosing environment (parts 2 and 3, concrete
observations). -/
theorem begin_returns_enclosing_env :
    (∀ (f : Nat) (st : Lisp.Store) (p : Nat) (env : Lisp.Value),
       st.car p = .Symbol "begin" →
       Lisp.eval (f + 1) st (.Cons p) env =
         match Lisp.eval_block_body (Lisp.eval f) st (st.cdr p) env with
         | .error e => .error e
         | .ok (v, st2) => .ok (v, env, st2)) ∧
    Lisp.beginDefineObs =
      (.ok (.Int 2, .Nil), .error (.err "undefined symbol: \"x\"")) ∧
    Lisp.beginSetObs = (.ok (.Nil, .Cons 1), .ok (.Int 2)) := by
  refine ⟨?_, by decide, by decide⟩
  intro f st p env hp
  rw [Lisp.eval_succ, Lisp.evalStep, hp]
  simp only [String.reduceEq, reduceIte]

set_option maxRecDepth 40000 in
/-- Witness for C10: the general begin equation at the concrete
(begin (define x 1) 2) program in the empty environment. -/
theorem begin_returns_enclosing_env_witness :
    Lisp.eval 6 Lisp.beginDefineProgram.1 (.Cons 5) .Nil =
      match Lisp.eval_block_body (Lisp.eval 5) Lisp.beginDefineProgram.1
          (Lisp.Store.cdr Lisp.beginDefineProgram.1 5) .Nil with
      | .error e => .error e
      | .ok (v, st2) => .ok (v, .Nil, st2) :=
  begin_returns_enclosing_env.1 5 Lisp.beginDefineProgram.1 5 .Nil (by decide)

set_option maxRecDepth 100000 in
set_option maxHeartbeats 2000000 in
/-- C3 counterexample: the evaluator has no trampoline: there is no
suspended-call value in the Value type and eval enters apply, which enters
eval for the body, as nested invocations.  Under the depth-budget
semantics (the budget is decremented exactly at nested evaluator
invocations, never at loop iterations), the budget 6 that completes the
self-tail-recursive loop of 0 iterations is exhausted by the loop of
1,000,000 iterations, refuting evaluation of (loop 1000000) in O(1) host
stack. -/
theorem tail_calls_consume_host_stack_counterexample :
    Lisp.runLoop 6 0 = .ok (.Symbol "done") ∧
    Lisp.runLoop 6 1000000 = .error .noFuel := by
  exact ⟨by decide, by decide⟩

/-- C3 (amended): the evaluator has no trampoline, so the host recursion
depth needed to evaluate the self-tail-recursive loop of N iterations
grows linearly with N: every depth budget up to 3 N + 5 is exhausted
(noFuel) and budget 3 N + 6 completes the loop, for every N.  No fixed
budget covers unbounded N, refuting evaluation in O(1) host stack. -/
theorem tail_call_depth_grows_with_iterations :
    (∀ N F : Nat, F ≤ 3 * N + 5 →
        Lisp.runLoop F (Int.ofNat N) = Except.error Lisp.VmErr.noFuel) ∧
    (∀ N : Nat, Lisp.runLoop (3 * N + 6) (Int.ofNat N) =
        Except.ok (Lisp.Value.Symbol "done")) :=
  ⟨fun N F hF => Lisp.loopNeedsLinearFuel N F hF,
   fun N => Lisp.loopSucceedsAtLinearFuel N⟩

/-- Witness for the amended C3 theorem at N = 2: depth budget 11 = 3·2+5
fails with noFuel and budget 12 = 3·2+6 completes the 2-iteration loop. -/
theorem tail_call_depth_grows_with_iterations_witness :
    Lisp.runLoop 11 (Int.ofNat 2) = Except.error Lisp.VmErr.noFuel ∧
    Lisp.runLoop 12 (Int.ofNat 2) = Except.ok (Lisp.Value.Symbol "done") :=
  ⟨tail_call_depth_grows_with_iterations.1 2 11 (by decide),
   tail_call_depth_grows_with_iterations.2 2⟩
